import Mathlib

/-!
# Slotpromo: the redemption core of `functions/index.js`

A shallow embedding of the callable functions `spinSlot` and `getConfig` and
of the helper `generarSimbolosPerdedor`.

Modelling conventions.

* The Firestore database is an explicit `Store` value: the collection
  `codigos` (document id to document), the document `config/actual`, and the
  collection `resultados` (documents with fresh ids, kept in creation order).
* `db.runTransaction` is state passing: the body computes the store that its
  queued writes produce; a body that throws commits nothing.
* JavaScript numbers are the rationals that are doubles.  An arithmetic
  operation is the exact operation followed by `toDouble`, the rounding to the
  nearest double; comparisons are exact.  Infinities and overflow are not
  modelled.
* `Math.random()` is an explicit stream of draws `rnd : ℕ → ℚ`, read in call
  order.
* `FieldValue.serverTimestamp()` is the argument `now`.
* What the Firestore library decides by itself is a parameter, `Firestore`:
  which ids `doc(id)` accepts, and the message of the error for a field that
  holds `undefined`.
* The `do ... while` loop of `generarSimbolosPerdedor` is bounded by `fuel`
  (one unit per round); `none` means the fuel ran out before the loop ended.
-/

namespace Slotpromo

/-! ## JavaScript numbers -/

/-- Round to the nearest integer, a tie going to the even one. -/
def roundHalfEven (y : ℚ) : ℤ :=
  if y - ⌊y⌋ < 1 / 2 then ⌊y⌋
  else if 1 / 2 < y - ⌊y⌋ then ⌊y⌋ + 1
  else if ⌊y⌋ % 2 = 0 then ⌊y⌋ else ⌊y⌋ + 1

/-- The exponent `g` for which the doubles next to `x` are the multiples of
`2 ^ g`: `52` below the binary exponent of `x`, and `-1074` for the subnormal
`x`. -/
def ulpExp (x : ℚ) : ℤ := max (Int.log 2 |x|) (-1022) - 52

/-- The double nearest to `x`, a tie going to the even mantissa: the result of a
JavaScript operation whose exact result is `x` (for `|x|` below the overflow
threshold `2 ^ 1024`). -/
def toDouble (x : ℚ) : ℚ := (roundHalfEven (x / 2 ^ ulpExp x) : ℚ) * 2 ^ ulpExp x

/-- The literal `0.1`: the double nearest to one tenth. -/
def defaultProbabilidad : ℚ := 3602879701896397 / 2 ^ 55

/-! ## Values, errors and documents -/

/-- JavaScript values that a field of the payload or of a document can hold. -/
inductive JsVal where
  | undefined
  | null
  | bool (b : Bool)
  | number (q : ℚ)
  | nan
  | string (s : String)
  | object
deriving DecidableEq

/-- Truthiness of a JavaScript value (`!v` is its negation). -/
def JsVal.truthy : JsVal → Bool
  | .undefined => false
  | .null => false
  | .bool b => b
  | .number q => decide (q ≠ 0)
  | .nan => false
  | .string s => decide (s ≠ "")
  | .object => true

/-- The test `typeof v === 'string'`. -/
def JsVal.isString : JsVal → Bool
  | .string _ => true
  | _ => false

/-- The codes of `functions.https.HttpsError` that the source uses. -/
inductive ErrorCode where
  | invalidArgument
  | notFound
  | alreadyExists
  | internal
deriving DecidableEq, Repr

/-- An `HttpsError`: its code and its message. -/
structure HttpsError where
  code : ErrorCode
  message : String
deriving DecidableEq, Repr

/-- What the body of the transaction can throw: an `HttpsError` of the source,
or the `Error` of the Firestore library for a written field that holds
`undefined`. -/
inductive TxThrown where
  | https (e : HttpsError)
  | undefinedField
deriving DecidableEq

/-- What the handler of `spinSlot` can throw: an `HttpsError`; the `TypeError`
of `const { codigo } = data` for a payload that is `null` or `undefined`; or
the `Error` of `db.collection('codigos').doc(codigo)` for an id that the
library refuses. -/
inductive Thrown where
  | https (e : HttpsError)
  | typeError
  | invalidPath
deriving DecidableEq

/-- What the model takes from the Firestore library. -/
structure Firestore where
  /-- Whether `db.collection('codigos').doc(id)` returns a reference for the
  non-empty id; it throws an `Error` otherwise. -/
  docOk : String → Bool
  /-- The message of the `Error` that `transaction.set` throws for a field
  that holds `undefined`. -/
  undefinedMessage : String

/-- A document of the collection `codigos`.  `usado` is the truthiness of the
stored field; the other fields are `none` while unset (or `null`). -/
structure CodigoDoc where
  usado : Bool
  ganador : Option Bool
  fecha_uso : Option ℕ
  userId : Option String
deriving DecidableEq

/-- The document `config/actual`.  A numeric field is the double that
JavaScript reads, or `none` when the field is missing, `null` or `NaN`;
`premio_nombre` is `undefined` when the field is missing. -/
structure ConfigDoc where
  premios_restantes : Option ℚ
  probabilidad : Option ℚ
  premio_nombre : JsVal
  ultimo_ganador : Option ℕ
deriving DecidableEq

/-- A document of the collection `resultados`; `simbolo` is `none` for
`null`. -/
structure ResultadoDoc where
  codigo : String
  gano : Bool
  simbolo : Option String
  premio_nombre : JsVal
  fecha : ℕ
  userId : Option String
deriving DecidableEq

/-- The database: `codigos`, `config/actual` and `resultados`. -/
structure Store where
  codigos : String → Option CodigoDoc
  config : Option ConfigDoc
  resultados : List ResultadoDoc

/-- A payload `data` that is not `null` or `undefined`: the value of its field
`codigo` (`undefined` when it has none). -/
structure Data where
  codigo : JsVal

/-- The callable context: `auth` is `context.auth?.uid` (`none` when the
caller is not authenticated). -/
structure Context where
  auth : Option String

/-- The object that `spinSlot` returns; `simbolo` is `none` for `null`, and an
entry of `simbolosMostrados` is `none` for `undefined`. -/
structure Resultado where
  gana : Bool
  simbolo : Option String
  simbolosMostrados : List (Option String)
  premio_nombre : JsVal
  premios_restantes : ℚ
deriving DecidableEq

/-! ## Helpers for JavaScript expressions -/

/-- The expression `x || d` on a numeric field: `d` when the field is missing
or is `0`, else the field. -/
def orDefault (x : Option ℚ) (d : ℚ) : ℚ :=
  match x with
  | none => d
  | some q => if q = 0 then d else q

/-- The expression `context.auth?.uid || null`. -/
def uidOrNull (context : Context) : Option String :=
  match context.auth with
  | none => none
  | some u => if u = "" then none else some u

/-- The expression `error.message || 'Error del servidor'`. -/
def messageOrDefault (m : String) : String :=
  if m = "" then "Error del servidor" else m

/-- Array indexing `xs[i]` with an integer index: `none` (undefined) outside
the array. -/
def jsIndex (xs : List String) (i : ℤ) : Option String :=
  if i < 0 then none else xs[i.toNat]?

/-- The expression `simbolos[Math.floor(u * simbolos.length)]` for a draw `u`:
the product is rounded to a double before the floor is taken. -/
def elegir (simbolos : List String) (u : ℚ) : Option String :=
  jsIndex simbolos ⌊toDouble (u * (simbolos.length : ℚ))⌋

/-- The constant `simbolos` of `spinSlot`. -/
def simbolos : List String := ["💎", "💰", "👑", "🍀", "⭐"]

/-! ## `generarSimbolosPerdedor` -/

/-- The loop of `generarSimbolosPerdedor`: each round reads three draws, from
position `i` of the stream on, and the loop ends at the first round whose three
symbols are not all equal.  `fuel` bounds the number of rounds. -/
def generarSimbolosPerdedor (simbolos : List String) (rnd : ℕ → ℚ) (i : ℕ) :
    ℕ → Option (List (Option String))
  | 0 => none
  | fuel + 1 =>
    let s1 := elegir simbolos (rnd i)
    let s2 := elegir simbolos (rnd (i + 1))
    let s3 := elegir simbolos (rnd (i + 2))
    if s1 = s2 ∧ s2 = s3 then generarSimbolosPerdedor simbolos rnd (i + 3) fuel
    else some [s1, s2, s3]

/-! ## `spinSlot` -/

/-- The body of the transaction of `spinSlot`, for a string `codigo`.
`some (.error e)`: the body throws `e`.  `some (.ok (r, s'))`: the body returns
`r` and its writes produce `s'`.  `none`: the fuel ran out in
`generarSimbolosPerdedor`. -/
def spinSlotTx (s : Store) (codigo : String) (context : Context) (now : ℕ)
    (rnd : ℕ → ℚ) (fuel : ℕ) : Option (Except TxThrown (Resultado × Store)) :=
  match s.codigos codigo with
  | none => some (.error (.https ⟨.notFound, "Código inválido"⟩))
  | some codigoData =>
    if codigoData.usado then some (.error (.https ⟨.alreadyExists, "Código ya usado"⟩))
    else
      match s.config with
      | none => some (.error (.https ⟨.internal, "Configuración no disponible"⟩))
      | some config =>
        let premiosRestantes := orDefault config.premios_restantes 0
        let probabilidad := orDefault config.probabilidad defaultProbabilidad
        -- `&&` reads its draw only when `premiosRestantes > 0`
        let gana : Bool := decide (premiosRestantes > 0) && decide (rnd 0 < probabilidad)
        -- `none` is `null` on a loss and `undefined` on a win
        let simboloGanador : Option String := if gana then elegir simbolos (rnd 1) else none
        let leidos : ℕ := if premiosRestantes > 0 then 1 else 0
        -- 4. transaction.update(codigoRef, ...)
        let codigos1 := Function.update s.codigos codigo
          (some { codigoData with
                    usado := true, ganador := some gana,
                    fecha_uso := some now, userId := uidOrNull context })
        -- 5. transaction.update(configRef, ...) on a win
        let config1 : ConfigDoc :=
          if gana then
            { config with
                premios_restantes := some (toDouble (premiosRestantes - 1)),
                ultimo_ganador := some now }
          else config
        -- 6. transaction.set(resultadoRef, ...): the library throws for a
        -- field that holds `undefined`
        if gana = true ∧ (simboloGanador = none ∨ config.premio_nombre = JsVal.undefined) then
          some (.error .undefinedField)
        else
          let resultados1 := s.resultados ++
            [{ codigo := codigo, gano := gana, simbolo := simboloGanador,
               premio_nombre := if gana then config.premio_nombre else JsVal.null,
               fecha := now, userId := uidOrNull context }]
          let mostrados : Option (List (Option String)) :=
            if gana then some [simboloGanador, simboloGanador, simboloGanador]
            else generarSimbolosPerdedor simbolos rnd leidos fuel
          match mostrados with
          | none => none
          | some simbolosMostrados =>
            some (.ok
              ({ gana := gana, simbolo := simboloGanador,
                 simbolosMostrados := simbolosMostrados,
                 premio_nombre := if gana then config.premio_nombre else JsVal.null,
                 premios_restantes :=
                   if gana then toDouble (premiosRestantes - 1) else premiosRestantes },
               { codigos := codigos1, config := some config1, resultados := resultados1 }))

/-- The handler of `spinSlot`: what it returns or throws, and the store
afterwards.  `data` is `none` for a payload that is `null` or `undefined`.
The result `none`: the call does not return within the fuel (nothing is
committed). -/
def spinSlot (fs : Firestore) (s : Store) (data : Option Data) (context : Context) (now : ℕ)
    (rnd : ℕ → ℚ) (fuel : ℕ) : Option (Except Thrown Resultado × Store) :=
  match data with
  -- const { codigo } = data
  | none => some (.error .typeError, s)
  | some data =>
    if !data.codigo.truthy || !data.codigo.isString then
      some (.error (.https ⟨.invalidArgument, "Código inválido"⟩), s)
    else
      match data.codigo with
      | .string codigo =>
        -- db.collection('codigos').doc(codigo), before the `try`
        if !fs.docOk codigo then some (.error .invalidPath, s)
        else
          match spinSlotTx s codigo context now rnd fuel with
          | none => none
          | some (.error (.https error)) =>
            some (.error (.https ⟨.internal, messageOrDefault error.message⟩), s)
          | some (.error .undefinedField) =>
            some (.error (.https ⟨.internal, messageOrDefault fs.undefinedMessage⟩), s)
          | some (.ok (resultado, s1)) => some (.ok resultado, s1)
      -- not reached: a value that passes the validation is a string
      | _ => some (.error (.https ⟨.invalidArgument, "Código inválido"⟩), s)

/-! ## Rounds of the loop of `generarSimbolosPerdedor` -/

/-- The three symbols that round `k` of the loop picks when the loop starts
reading the stream at position `i`: round `k` reads the draws `i + 3 * k`,
`i + 3 * k + 1` and `i + 3 * k + 2`. -/
def ronda (simbolos : List String) (rnd : ℕ → ℚ) (i k : ℕ) : List (Option String) :=
  [elegir simbolos (rnd (i + 3 * k)), elegir simbolos (rnd (i + 3 * k + 1)),
    elegir simbolos (rnd (i + 3 * k + 2))]

/-- The loop condition `s1 === s2 && s2 === s3` in round `k`. -/
def todosIguales (simbolos : List String) (rnd : ℕ → ℚ) (i k : ℕ) : Bool :=
  decide (elegir simbolos (rnd (i + 3 * k)) = elegir simbolos (rnd (i + 3 * k + 1)) ∧
    elegir simbolos (rnd (i + 3 * k + 1)) = elegir simbolos (rnd (i + 3 * k + 2)))

/-! ## `getConfig` -/

/-- The object that `getConfig` returns: `vacia` is the empty object `{}`,
`campos` the object with the fields `premio_nombre` and `premios_restantes`. -/
inductive ConfigPublica where
  | vacia
  | campos (premio_nombre : JsVal) (premios_restantes : Option ℚ)
deriving DecidableEq

/-- The statements of the body of `getConfig`, where `data` is the
`const data = configDoc.data()` of the body: the object returned and the store
afterwards. -/
def getConfigBody (s : Store) : ConfigPublica × Store :=
  match s.config with
  | none => (.vacia, s)
  | some data => (.campos data.premio_nombre data.premios_restantes, s)

/-- The names that a function binds: its parameters, and the names declared
with `const` or `let` at the top level of its body. -/
structure BoundNames where
  params : List String
  lexical : List String

/-- The handler of `getConfig`: parameters `data` and `context`; its body
declares `const configDoc` and `const data`. -/
def getConfigNames : BoundNames := ⟨["data", "context"], ["configDoc", "data"]⟩

/-- The handler of `spinSlot`: parameters `data` and `context`; its body
declares `const { codigo }`, `const codigoRef` and `const configRef` (the
`const resultado` is inside the `try` block). -/
def spinSlotNames : BoundNames := ⟨["data", "context"], ["codigo", "codigoRef", "configRef"]⟩

/-- The early error of ECMAScript for a function: a parameter name that the
top level of the body declares again with `const` or `let`. -/
def BoundNames.clash (b : BoundNames) : Bool :=
  b.params.any (fun p => b.lexical.contains p)

/-- The callable `getConfig` as the runtime takes it: a function whose names
clash is refused with a `SyntaxError` when the file is read, so that no call
reaches its body. -/
def getConfig (s : Store) : Except String (ConfigPublica × Store) :=
  if getConfigNames.clash then
    .error "SyntaxError: Identifier data has already been declared"
  else .ok (getConfigBody s)

/-! ## Sequences of calls -/

/-- One call of `spinSlot` with everything it reads from outside the store. -/
structure Call where
  data : Option Data
  context : Context
  now : ℕ
  rnd : ℕ → ℚ
  fuel : ℕ

/-- One call applied to a store: what the caller gets (`none` when the call
does not return within its fuel) and the store afterwards (unchanged when
nothing was committed). -/
def step (fs : Firestore) (s : Store) (c : Call) : Option (Except Thrown Resultado) × Store :=
  match spinSlot fs s c.data c.context c.now c.rnd c.fuel with
  | none => (none, s)
  | some (r, s1) => (some r, s1)

/-- Calls applied one after another: the store after the last one. -/
def run (fs : Firestore) (s : Store) : List Call → Store
  | [] => s
  | c :: cs => run fs (step fs s c).2 cs

/-- Calls applied one after another: what each caller gets. -/
def outputs (fs : Firestore) (s : Store) : List Call → List (Option (Except Thrown Resultado))
  | [] => []
  | c :: cs => (step fs s c).1 :: outputs fs (step fs s c).2 cs

/-- Whether a caller got a result with `gana = true`. -/
def isWin : Option (Except Thrown Resultado) → Bool
  | some (.ok r) => r.gana
  | _ => false

/-- The value of `premios_restantes` stored in `config/actual`, when there is
one. -/
def Store.remaining (s : Store) : Option ℚ :=
  match s.config with
  | none => none
  | some config => config.premios_restantes

/-- Whether the record of a code exists with `usado` set. -/
def Store.usado (s : Store) (codigo : String) : Bool :=
  match s.codigos codigo with
  | none => false
  | some doc => doc.usado

/-- The number of documents of `resultados` written for a code. -/
def Store.registros (s : Store) (codigo : String) : ℕ :=
  s.resultados.countP (fun d => decide (d.codigo = codigo))

/-- The draws of a stream are doubles in `[0, 1)`, as those of
`Math.random()`. -/
def UnitDraws (rnd : ℕ → ℚ) : Prop := ∀ i, toDouble (rnd i) = rnd i ∧ 0 ≤ rnd i ∧ rnd i < 1

/-! ## Concrete stores and calls -/

/-- A library that refuses the id `a/b` and accepts every other one. -/
def fsEx : Firestore :=
  ⟨fun id => decide (id ≠ "a/b"), "Cannot use undefined as a Firestore value"⟩

/-- A library that accepts every id. -/
def fsAll : Firestore := ⟨fun _ => true, "Cannot use undefined as a Firestore value"⟩

/-- A store with the unused code `A`, the used code `B`, and the given
`config/actual`. -/
def storeWith (config : Option ConfigDoc) : Store :=
  { codigos := fun c =>
      if c = "A" then some ⟨false, none, none, none⟩
      else if c = "B" then some ⟨true, some false, some 0, none⟩
      else none,
    config := config,
    resultados := [] }

/-- One prize left, certain win. -/
def lastPrize : ConfigDoc := ⟨some 1, some 1, .string "Premio", none⟩

/-- One prize left, certain win, and no field `premio_nombre`. -/
def noLabel : ConfigDoc := ⟨some 1, some 1, .undefined, none⟩

/-- The counter at `1e16`, certain win. -/
def bigPrize : ConfigDoc := ⟨some (10 ^ 16), some 1, .string "Premio", none⟩

/-- The stream whose draws are all `0`. -/
def zeros : ℕ → ℚ := fun _ => 0

/-- What redeeming `A` in `storeWith (some lastPrize)` at time `7` with the
draws `zeros` returns. -/
def wonA : Resultado :=
  ⟨true, some "💎", [some "💎", some "💎", some "💎"], .string "Premio", 0⟩

/-- The store after that call. -/
def storeWonA : Store :=
  { codigos := Function.update (storeWith (some lastPrize)).codigos "A"
      (some ⟨true, some true, some 7, none⟩),
    config := some ⟨some 0, some 1, .string "Premio", some 7⟩,
    resultados := [⟨"A", true, some "💎", .string "Premio", 7, none⟩] }

/-- What redeeming `A` in `storeWith (some bigPrize)` at time `7` with the
draws `zeros` returns. -/
def wonBig : Resultado :=
  ⟨true, some "💎", [some "💎", some "💎", some "💎"], .string "Premio", 10 ^ 16⟩

/-- The store after that call. -/
def storeWonBig : Store :=
  { codigos := Function.update (storeWith (some bigPrize)).codigos "A"
      (some ⟨true, some true, some 7, none⟩),
    config := some ⟨some (10 ^ 16), some 1, .string "Premio", some 7⟩,
    resultados := [⟨"A", true, some "💎", .string "Premio", 7, none⟩] }

/-- One prize left and `probabilidad` set to `0`. -/
def zeroProbability : ConfigDoc := ⟨some 1, some 0, .string "Premio", none⟩

/-- No prize left, `probabilidad` set to `1`. -/
def soldOut : ConfigDoc := ⟨some 0, some 1, .string "Premio", none⟩

/-- A stream whose first round of three draws picks two different symbols. -/
def mixed : ℕ → ℚ := fun i => if i = 0 then 1 / 2 else 0

/-- The stream of draws `0.6`, `0.5`, `0.5`, `0.5`, ... -/
def sixTenths : ℕ → ℚ := fun i => if i = 0 then 5404319552844595 / 2 ^ 53 else 1 / 2

/-- What redeeming `A` in `storeWith (some soldOut)` at time `7` with the draws
`mixed` returns. -/
def lostA : Resultado :=
  ⟨false, none, [some "👑", some "💎", some "💎"], .null, 0⟩

/-- The store after that call. -/
def storeLostA : Store :=
  { codigos := Function.update (storeWith (some soldOut)).codigos "A"
      (some ⟨true, some false, some 7, none⟩),
    config := some soldOut,
    resultados := [⟨"A", false, none, .null, 7, none⟩] }

/-- A store with the two unused codes `A` and `C`, one prize left, certain win,
and no document in `resultados`. -/
def storeTwo : Store :=
  { codigos := fun c =>
      if c = "A" then some ⟨false, none, none, none⟩
      else if c = "C" then some ⟨false, none, none, none⟩
      else none,
    config := some lastPrize,
    resultados := [] }

/-- The store after `A` is redeemed in `storeTwo` at time `7` with the draws
`zeros`. -/
def storeTwoWonA : Store :=
  { codigos := Function.update storeTwo.codigos "A" (some ⟨true, some true, some 7, none⟩),
    config := some ⟨some 0, some 1, .string "Premio", some 7⟩,
    resultados := [⟨"A", true, some "💎", .string "Premio", 7, none⟩] }

/-- As `storeTwo`, but `config/actual` has no `premio_nombre`. -/
def storeTwoNoLabel : Store :=
  { codigos := fun c =>
      if c = "A" then some ⟨false, none, none, none⟩
      else if c = "C" then some ⟨false, none, none, none⟩
      else none,
    config := some noLabel,
    resultados := [] }

/-- A call for `C` with the draws `mixed`. -/
def callC : Call := ⟨some ⟨.string "C"⟩, ⟨some "u3"⟩, 9, mixed, 2⟩

/-- The call that redeems `A` at time `7` with the draws `zeros`. -/
def callA : Call := ⟨some ⟨.string "A"⟩, ⟨none⟩, 7, zeros, 0⟩

/-- A later call for `A` by the caller `u2`. -/
def callA2 : Call := ⟨some ⟨.string "A"⟩, ⟨some "u2"⟩, 9, zeros, 3⟩

/-- A call for the used code `B`. -/
def callB : Call := ⟨some ⟨.string "B"⟩, ⟨none⟩, 11, zeros, 3⟩

/-- The code number `i`: the letter `c`, then the binary digits of `i`, lowest
first, written `a` for `0` and `b` for `1`.  It has at most `55` letters for
`i ≤ 10 ^ 16`. -/
def codigoN (i : ℕ) : String :=
  ⟨'c' :: (Nat.digits 2 i).map (fun d => if d = 0 then 'a' else 'b')⟩

/-- The number that the letters after the first one of a code spell in
binary, lowest digit first, `a` read as `0` and any other letter as `1`. -/
def numeroDe (c : String) : ℕ :=
  Nat.ofDigits 2 (c.data.tail.map (fun ch => if ch = 'a' then 0 else 1))

/-- A store whose codes are `codigoN 0`, ..., `codigoN (10 ^ 16)`, all unused,
with the counter at `1e16` and certain win. -/
def bigStore : Store :=
  { codigos := fun c =>
      if numeroDe c ≤ 10 ^ 16 ∧ c = codigoN (numeroDe c) then
        some ⟨false, none, none, none⟩
      else none,
    config := some bigPrize,
    resultados := [] }

/-- The `m` calls that redeem the codes `codigoN k`, `codigoN (k + 1)`, ... one
after the other, each with the draws `zeros`. -/
def bigCalls (k : ℕ) : ℕ → List Call
  | 0 => []
  | m + 1 => ⟨some ⟨.string (codigoN k)⟩, ⟨none⟩, 0, zeros, 0⟩ :: bigCalls (k + 1) m

/-! ## Rounding to a double -/

theorem roundHalfEven_ge_floor (y : ℚ) : ⌊y⌋ ≤ roundHalfEven y := by
  unfold roundHalfEven
  split_ifs <;> omega

theorem roundHalfEven_le_floor_succ (y : ℚ) : roundHalfEven y ≤ ⌊y⌋ + 1 := by
  unfold roundHalfEven
  split_ifs <;> omega

theorem roundHalfEven_intCast (k : ℤ) : roundHalfEven (k : ℚ) = k := by
  simp [roundHalfEven]

/-- A value below `k + 1/2` does not round above `k`. -/
theorem roundHalfEven_le (y : ℚ) (k : ℤ) (h : y < (k : ℚ) + 1 / 2) : roundHalfEven y ≤ k := by
  have hfl : ⌊y⌋ ≤ k := by
    by_contra hc
    have h1 : k + 1 ≤ ⌊y⌋ := by omega
    have h2 : ((k + 1 : ℤ) : ℚ) ≤ y := Int.le_floor.mp h1
    push_cast at h2
    linarith
  rcases lt_or_eq_of_le hfl with hlt | heq
  · have := roundHalfEven_le_floor_succ y
    omega
  · unfold roundHalfEven
    rw [if_pos]
    · omega
    · rw [heq]
      linarith

theorem roundHalfEven_ge (y : ℚ) (k : ℤ) (h : (k : ℚ) ≤ y) : k ≤ roundHalfEven y :=
  le_trans (Int.le_floor.mpr h) (roundHalfEven_ge_floor y)

theorem two_zpow_pos (g : ℤ) : (0 : ℚ) < 2 ^ g := zpow_pos (by norm_num) g

/-- A multiple of the grid of `x` is its own rounding. -/
theorem toDouble_of_grid (x : ℚ) (k : ℤ) (h : x = (k : ℚ) * 2 ^ ulpExp x) : toDouble x = x := by
  have hq : x / 2 ^ ulpExp x = (k : ℚ) := by
    rw [div_eq_iff (ne_of_gt (two_zpow_pos _))]
    exact h
  unfold toDouble
  rw [hq, roundHalfEven_intCast]
  exact h.symm

theorem toDouble_nonneg (x : ℚ) (h : 0 ≤ x) : 0 ≤ toDouble x := by
  unfold toDouble
  have h1 : (0 : ℤ) ≤ roundHalfEven (x / 2 ^ ulpExp x) :=
    roundHalfEven_ge _ 0 (by simpa using div_nonneg h (le_of_lt (two_zpow_pos _)))
  have h2 : (0 : ℚ) ≤ (roundHalfEven (x / 2 ^ ulpExp x) : ℚ) := by exact_mod_cast h1
  exact mul_nonneg h2 (le_of_lt (two_zpow_pos _))

/-- Rounding does not pass a multiple of the grid. -/
theorem toDouble_le_of_grid (x : ℚ) (k : ℤ) (h : x ≤ (k : ℚ) * 2 ^ ulpExp x) :
    toDouble x ≤ (k : ℚ) * 2 ^ ulpExp x := by
  unfold toDouble
  have hq : x / 2 ^ ulpExp x ≤ (k : ℚ) := by
    rw [div_le_iff₀ (two_zpow_pos _)]
    exact h
  have h1 : roundHalfEven (x / 2 ^ ulpExp x) ≤ k := roundHalfEven_le _ k (by linarith)
  have h2 : (roundHalfEven (x / 2 ^ ulpExp x) : ℚ) ≤ (k : ℚ) := by exact_mod_cast h1
  exact mul_le_mul_of_nonneg_right h2 (le_of_lt (two_zpow_pos _))

theorem log_two_eq (r : ℚ) (e : ℤ) (h1 : (2 : ℚ) ^ e ≤ r) (h2 : r < (2 : ℚ) ^ (e + 1)) :
    Int.log 2 r = e := by
  have hr : 0 < r := lt_of_lt_of_le (two_zpow_pos e) h1
  have ha : e ≤ Int.log 2 r := (Int.zpow_le_iff_le_log (by norm_num) hr).mp (by exact_mod_cast h1)
  have hb : Int.log 2 r < e + 1 := (Int.lt_zpow_iff_log_lt (by norm_num) hr).mp (by exact_mod_cast h2)
  omega

theorem toDouble_zero : toDouble 0 = 0 := by
  simp [toDouble, roundHalfEven]

theorem ulpExp_natCast (m : ℕ) : ulpExp (m : ℚ) = (Nat.log 2 m : ℤ) - 52 := by
  unfold ulpExp
  rw [abs_of_nonneg (Nat.cast_nonneg m), Int.log_natCast]
  have : (0 : ℤ) ≤ (Nat.log 2 m : ℤ) := Int.natCast_nonneg _
  omega

theorem ulpExp_natCast_mono (a b : ℕ) (h : a ≤ b) : ulpExp (a : ℚ) ≤ ulpExp (b : ℚ) := by
  rw [ulpExp_natCast, ulpExp_natCast]
  have := Nat.log_mono_right (b := 2) h
  omega

/-- A natural number is a multiple of every grid with a non-positive exponent. -/
theorem natCast_grid_of_nonpos (m : ℕ) (g : ℤ) (hg : g ≤ 0) :
    ∃ k : ℤ, (m : ℚ) = (k : ℚ) * 2 ^ g := by
  obtain ⟨j, hj⟩ : ∃ j : ℕ, g = -(j : ℤ) := ⟨g.natAbs, by omega⟩
  refine ⟨(m : ℤ) * 2 ^ j, ?_⟩
  subst hj
  push_cast
  rw [zpow_neg, zpow_natCast, mul_assoc, mul_inv_cancel₀ (pow_ne_zero j (by norm_num)), mul_one]

/-- A multiple of a grid is a multiple of every finer grid. -/
theorem grid_mono (v : ℚ) (g g1 : ℤ) (h : g1 ≤ g) (hv : ∃ k : ℤ, v = (k : ℚ) * 2 ^ g) :
    ∃ k : ℤ, v = (k : ℚ) * 2 ^ g1 := by
  obtain ⟨k, hk⟩ := hv
  obtain ⟨j, hj⟩ : ∃ j : ℕ, g = g1 + (j : ℤ) := ⟨(g - g1).toNat, by omega⟩
  refine ⟨k * 2 ^ j, ?_⟩
  rw [hk, hj, zpow_add₀ (by norm_num), zpow_natCast]
  push_cast
  ring

/-- The naturals below `2 ^ 53` are doubles. -/
theorem toDouble_natCast (m : ℕ) (h : m < 2 ^ 53) : toDouble (m : ℚ) = (m : ℚ) := by
  have hg : ulpExp (m : ℚ) ≤ 0 := by
    rw [ulpExp_natCast]
    by_cases h0 : m = 0
    · subst h0
      simp
    · have : Nat.log 2 m < 53 := Nat.log_lt_of_lt_pow h0 h
      omega
  obtain ⟨k, hk⟩ := natCast_grid_of_nonpos m _ hg
  exact toDouble_of_grid _ k hk

/-- What a natural number on the grid of its predecessor becomes when `1` is
subtracted from it in doubles: a natural number that is not larger, again on the
grid of its predecessor. -/
theorem toDouble_pred (m : ℕ) (hm : 1 ≤ m)
    (hgrid : ∃ k : ℤ, (m : ℚ) = (k : ℚ) * 2 ^ ulpExp ((m : ℚ) - 1)) :
    ∃ w : ℕ, toDouble ((m : ℚ) - 1) = (w : ℚ) ∧ w ≤ m ∧
      ∃ k : ℤ, (w : ℚ) = (k : ℚ) * 2 ^ ulpExp ((w : ℚ) - 1) := by
  obtain ⟨x, rfl⟩ : ∃ x : ℕ, m = x + 1 := ⟨m - 1, by omega⟩
  have hx : ((x + 1 : ℕ) : ℚ) - 1 = (x : ℚ) := by push_cast; ring
  rw [hx] at hgrid ⊢
  obtain ⟨k, hk⟩ := hgrid
  -- the result is a natural number
  have hnat : ∃ w : ℕ, toDouble (x : ℚ) = (w : ℚ) := by
    by_cases hg : ulpExp (x : ℚ) ≤ 0
    · obtain ⟨k1, hk1⟩ := natCast_grid_of_nonpos x _ hg
      exact ⟨x, toDouble_of_grid _ k1 hk1⟩
    · obtain ⟨j, hj⟩ : ∃ j : ℕ, ulpExp (x : ℚ) = (j : ℤ) := ⟨(ulpExp (x : ℚ)).toNat, by omega⟩
      have hr : (0 : ℤ) ≤ roundHalfEven ((x : ℚ) / 2 ^ ulpExp (x : ℚ)) :=
        roundHalfEven_ge _ 0
          (by simpa using div_nonneg (Nat.cast_nonneg x) (le_of_lt (two_zpow_pos _)))
      obtain ⟨r, hr1⟩ : ∃ r : ℕ, roundHalfEven ((x : ℚ) / 2 ^ ulpExp (x : ℚ)) = (r : ℤ) :=
        ⟨_, (Int.toNat_of_nonneg hr).symm⟩
      refine ⟨r * 2 ^ j, ?_⟩
      unfold toDouble
      rw [hr1, hj, zpow_natCast]
      push_cast
      ring
  obtain ⟨w, hw⟩ := hnat
  have hle : (w : ℚ) ≤ ((x + 1 : ℕ) : ℚ) := by
    rw [← hw, hk]
    apply toDouble_le_of_grid
    rw [← hk]
    push_cast
    linarith
  have hle1 : w ≤ x + 1 := by exact_mod_cast hle
  refine ⟨w, hw, hle1, ?_⟩
  by_cases hw0 : w = 0
  · subst hw0
    exact ⟨0, by simp⟩
  · obtain ⟨y, rfl⟩ : ∃ y : ℕ, w = y + 1 := ⟨w - 1, by omega⟩
    have hy : ((y + 1 : ℕ) : ℚ) - 1 = (y : ℚ) := by push_cast; ring
    rw [hy]
    apply grid_mono _ (ulpExp (x : ℚ)) _ (ulpExp_natCast_mono y x (by omega))
    refine ⟨roundHalfEven ((x : ℚ) / 2 ^ ulpExp (x : ℚ)), ?_⟩
    rw [← hw]
    rfl

/-- A natural number that is a double lies on the grid of its predecessor. -/
theorem grid_pred_of_toDouble (m : ℕ) (h : toDouble (m : ℚ) = (m : ℚ)) :
    ∃ k : ℤ, (m : ℚ) = (k : ℚ) * 2 ^ ulpExp ((m : ℚ) - 1) := by
  by_cases hm0 : m = 0
  · subst hm0
    exact ⟨0, by simp⟩
  · obtain ⟨x, rfl⟩ : ∃ x : ℕ, m = x + 1 := ⟨m - 1, by omega⟩
    have hx : ((x + 1 : ℕ) : ℚ) - 1 = (x : ℚ) := by push_cast; ring
    rw [hx]
    apply grid_mono _ (ulpExp ((x + 1 : ℕ) : ℚ)) _ (ulpExp_natCast_mono x (x + 1) (by omega))
    exact ⟨roundHalfEven (((x + 1 : ℕ) : ℚ) / 2 ^ ulpExp ((x + 1 : ℕ) : ℚ)), h.symm⟩

/-- The double nearest to a natural number is a natural number on the grid of
its predecessor. -/
theorem toDouble_natCast_grid (x : ℕ) :
    ∃ w : ℕ, toDouble (x : ℚ) = (w : ℚ) ∧
      ∃ k : ℤ, (w : ℚ) = (k : ℚ) * 2 ^ ulpExp ((w : ℚ) - 1) := by
  have hnat : ∃ w : ℕ, toDouble (x : ℚ) = (w : ℚ) := by
    by_cases hg : ulpExp (x : ℚ) ≤ 0
    · obtain ⟨k1, hk1⟩ := natCast_grid_of_nonpos x _ hg
      exact ⟨x, toDouble_of_grid _ k1 hk1⟩
    · obtain ⟨j, hj⟩ : ∃ j : ℕ, ulpExp (x : ℚ) = (j : ℤ) := ⟨(ulpExp (x : ℚ)).toNat, by omega⟩
      have hr : (0 : ℤ) ≤ roundHalfEven ((x : ℚ) / 2 ^ ulpExp (x : ℚ)) :=
        roundHalfEven_ge _ 0
          (by simpa using div_nonneg (Nat.cast_nonneg x) (le_of_lt (two_zpow_pos _)))
      obtain ⟨r, hr1⟩ : ∃ r : ℕ, roundHalfEven ((x : ℚ) / 2 ^ ulpExp (x : ℚ)) = (r : ℤ) :=
        ⟨_, (Int.toNat_of_nonneg hr).symm⟩
      refine ⟨r * 2 ^ j, ?_⟩
      unfold toDouble
      rw [hr1, hj, zpow_natCast]
      push_cast
      ring
  obtain ⟨w, hw⟩ := hnat
  refine ⟨w, hw, ?_⟩
  -- the result does not pass the next power of two
  have htop : ((2 ^ 53 : ℤ) : ℚ) * 2 ^ ulpExp (x : ℚ) = 2 ^ (Nat.log 2 x + 1) := by
    have h53 : ((2 ^ 53 : ℤ) : ℚ) = (2 : ℚ) ^ (53 : ℤ) := by norm_num
    rw [ulpExp_natCast, h53, ← zpow_add₀ (by norm_num : (2 : ℚ) ≠ 0),
      ← zpow_natCast (2 : ℚ) (Nat.log 2 x + 1)]
    congr 1
    push_cast
    ring
  have hxlt : x < 2 ^ (Nat.log 2 x + 1) := Nat.lt_pow_succ_log_self (by norm_num) x
  have hxle : (x : ℚ) ≤ ((2 ^ 53 : ℤ) : ℚ) * 2 ^ ulpExp (x : ℚ) := by
    rw [htop]
    exact_mod_cast le_of_lt hxlt
  have hwle : (w : ℚ) ≤ 2 ^ (Nat.log 2 x + 1) := by
    rw [← hw, ← htop]
    exact toDouble_le_of_grid _ _ hxle
  have hwle1 : w ≤ 2 ^ (Nat.log 2 x + 1) := by exact_mod_cast hwle
  by_cases hw0 : w = 0
  · subst hw0
    exact ⟨0, by simp⟩
  · obtain ⟨y, rfl⟩ : ∃ y : ℕ, w = y + 1 := ⟨w - 1, by omega⟩
    have hy : ((y + 1 : ℕ) : ℚ) - 1 = (y : ℚ) := by push_cast; ring
    rw [hy]
    have hlog : Nat.log 2 y ≤ Nat.log 2 x := by
      by_cases hy0 : y = 0
      · subst hy0
        simp
      · have : Nat.log 2 y < Nat.log 2 x + 1 := Nat.log_lt_of_lt_pow hy0 (by omega)
        omega
    have hmono : ulpExp (y : ℚ) ≤ ulpExp (x : ℚ) := by
      rw [ulpExp_natCast, ulpExp_natCast]
      omega
    apply grid_mono _ (ulpExp (x : ℚ)) _ hmono
    refine ⟨roundHalfEven ((x : ℚ) / 2 ^ ulpExp (x : ℚ)), ?_⟩
    rw [← hw]
    rfl

theorem ulpExp_eq (x : ℚ) (e : ℤ) (hx : 0 ≤ x) (h1 : (2 : ℚ) ^ e ≤ x) (h2 : x < (2 : ℚ) ^ (e + 1))
    (he : -1022 ≤ e) : ulpExp x = e - 52 := by
  unfold ulpExp
  rw [abs_of_nonneg hx, log_two_eq x e h1 h2]
  omega

/-- The product of a double in `[0, 1)` and `5`, rounded to a double, is still
below `5`. -/
theorem toDouble_mul_five_lt (u : ℚ) (hd : toDouble u = u) (h0 : 0 ≤ u) (h1 : u < 1) :
    toDouble (u * 5) < 5 := by
  by_cases h4 : u * 5 < 4
  · -- below 4 the rounding cannot pass 4
    have hg : ulpExp (u * 5) ≤ 2 := by
      unfold ulpExp
      rw [abs_of_nonneg (by positivity)]
      by_cases hz : u * 5 ≤ 0
      · rw [Int.log_of_right_le_zero 2 hz]
        omega
      · have hpos : 0 < u * 5 := lt_of_not_ge hz
        have : Int.log 2 (u * 5) < 2 :=
          (Int.lt_zpow_iff_log_lt (by norm_num) hpos).mp (by norm_num; linarith)
        omega
    obtain ⟨k, hk⟩ := grid_mono 4 2 _ hg ⟨1, by norm_num⟩
    have := toDouble_le_of_grid (u * 5) k (by rw [← hk]; linarith)
    rw [← hk] at this
    linarith
  · have h4' : 4 ≤ u * 5 := le_of_not_lt h4
    have hgx : ulpExp (u * 5) = -50 := by
      rw [ulpExp_eq (u * 5) 2 (by positivity) (by norm_num; linarith) (by norm_num; linarith)
        (by norm_num)]
      norm_num
    have hgu : ulpExp u = -53 := by
      rw [ulpExp_eq u (-1) h0 (by norm_num; linarith) (by norm_num; linarith) (by norm_num)]
      norm_num
    -- `u` is a multiple of `2 ^ (-53)` below `1`
    have hu : u = (roundHalfEven (u / 2 ^ ulpExp u) : ℚ) * 2 ^ (-53 : ℤ) := by
      have := hd
      unfold toDouble at this
      rw [hgu] at this ⊢
      exact this.symm
    set r := roundHalfEven (u / 2 ^ ulpExp u) with hr
    have hr53 : (r : ℚ) < 2 ^ 53 := by
      have : (r : ℚ) * 2 ^ (-53 : ℤ) < 1 := by rw [← hu]; exact h1
      have h2 : (2 : ℚ) ^ (-53 : ℤ) = 1 / 2 ^ 53 := by norm_num
      rw [h2] at this
      have h3 : (0 : ℚ) < 2 ^ 53 := by norm_num
      rw [mul_one_div, div_lt_one h3] at this
      exact this
    have hr53' : r ≤ 2 ^ 53 - 1 := by
      have : r < 2 ^ 53 := by exact_mod_cast hr53
      omega
    have hr53'' : (r : ℚ) ≤ 2 ^ 53 - 1 := by exact_mod_cast hr53'
    have hround : roundHalfEven (u * 5 / 2 ^ ulpExp (u * 5)) ≤ 5 * 2 ^ 50 - 1 := by
      apply roundHalfEven_le
      rw [hgx, hu]
      have h2 : (2 : ℚ) ^ (-53 : ℤ) = 1 / 2 ^ 53 := by norm_num
      have h3 : (2 : ℚ) ^ (-50 : ℤ) = 1 / 2 ^ 50 := by norm_num
      rw [h2, h3]
      push_cast
      have : (r : ℚ) * (1 / 2 ^ 53) * 5 / (1 / 2 ^ 50) = (r : ℚ) * 5 / 8 := by
        field_simp
        ring
      rw [this]
      linarith
    have hround' : (roundHalfEven (u * 5 / 2 ^ ulpExp (u * 5)) : ℚ) ≤ 5 * 2 ^ 50 - 1 := by
      exact_mod_cast hround
    unfold toDouble
    have hpos := two_zpow_pos (ulpExp (u * 5))
    calc (roundHalfEven (u * 5 / 2 ^ ulpExp (u * 5)) : ℚ) * 2 ^ ulpExp (u * 5)
        ≤ (5 * 2 ^ 50 - 1) * 2 ^ ulpExp (u * 5) := mul_le_mul_of_nonneg_right hround' (le_of_lt hpos)
      _ < 5 := by
        rw [hgx]
        norm_num

theorem toDouble_half : toDouble (1 / 2) = 1 / 2 := by
  apply toDouble_of_grid _ (2 ^ 52)
  rw [ulpExp_eq (1 / 2) (-1) (by norm_num) (by norm_num) (by norm_num) (by norm_num)]
  norm_num

theorem toDouble_five_halves : toDouble (5 / 2) = 5 / 2 := by
  apply toDouble_of_grid _ (5 * 2 ^ 50)
  rw [ulpExp_eq (5 / 2) 1 (by norm_num) (by norm_num) (by norm_num) (by norm_num)]
  norm_num

/-- In doubles `1e16 - 1` is `1e16`. -/
theorem toDouble_big_pred : toDouble (10 ^ 16 - 1) = 10 ^ 16 := by
  have hg : ulpExp (10 ^ 16 - 1) = 1 := by
    rw [ulpExp_eq (10 ^ 16 - 1) 53 (by norm_num) (by norm_num) (by norm_num) (by norm_num)]
    norm_num
  have hfl : ⌊((10 : ℚ) ^ 16 - 1) / 2 ^ (1 : ℤ)⌋ = 4999999999999999 := by
    rw [Int.floor_eq_iff]
    norm_num
  have hr : roundHalfEven (((10 : ℚ) ^ 16 - 1) / 2 ^ (1 : ℤ)) = 5000000000000000 := by
    unfold roundHalfEven
    rw [hfl]
    norm_num
  unfold toDouble
  rw [hg, hr]
  norm_num

/-- The double written `0.6`, times `5`, is `3` in doubles (the exact product
is below `3`). -/
theorem toDouble_six_tenths :
    toDouble (5404319552844595 / 2 ^ 53 * 5) = 3 ∧
      (5404319552844595 / 2 ^ 53 * 5 : ℚ) < 3 := by
  refine ⟨?_, by norm_num⟩
  have hg : ulpExp (5404319552844595 / 2 ^ 53 * 5) = -51 := by
    rw [ulpExp_eq _ 1 (by norm_num) (by norm_num) (by norm_num) (by norm_num)]
    norm_num
  have hfl : ⌊(5404319552844595 / 2 ^ 53 * 5 : ℚ) / 2 ^ (-51 : ℤ)⌋ = 6755399441055743 := by
    rw [Int.floor_eq_iff]
    norm_num
  have hr : roundHalfEven ((5404319552844595 / 2 ^ 53 * 5 : ℚ) / 2 ^ (-51 : ℤ)) =
      6755399441055744 := by
    unfold roundHalfEven
    rw [hfl]
    norm_num
  unfold toDouble
  rw [hg, hr]
  norm_num

/-! ## Basic facts about `spinSlot` -/

theorem spinSlotTx_ok_all {s s1 : Store} {codigo : String} {context : Context} {now : ℕ}
    {rnd : ℕ → ℚ} {fuel : ℕ} {r : Resultado}
    (h : spinSlotTx s codigo context now rnd fuel = some (.ok (r, s1))) :
    ∃ codigoData config,
      s.codigos codigo = some codigoData ∧ codigoData.usado = false ∧
      s.config = some config ∧
      r.gana = (decide (orDefault config.premios_restantes 0 > 0) &&
        decide (rnd 0 < orDefault config.probabilidad defaultProbabilidad)) ∧
      r.simbolo = (if r.gana then elegir simbolos (rnd 1) else none) ∧
      r.premio_nombre = (if r.gana then config.premio_nombre else JsVal.null) ∧
      r.premios_restantes =
        (if r.gana then toDouble (orDefault config.premios_restantes 0 - 1)
          else orDefault config.premios_restantes 0) ∧
      s1 = { codigos := Function.update s.codigos codigo
               (some { codigoData with
                  usado := true, ganador := some r.gana,
                  fecha_uso := some now, userId := uidOrNull context }),
             config := some (if r.gana then
                { config with
                    premios_restantes :=
                      some (toDouble (orDefault config.premios_restantes 0 - 1)),
                    ultimo_ganador := some now }
              else config),
             resultados := s.resultados ++
              [{ codigo := codigo, gano := r.gana, simbolo := r.simbolo,
                 premio_nombre := if r.gana then config.premio_nombre else JsVal.null,
                 fecha := now, userId := uidOrNull context }] } ∧
      ¬ (r.gana = true ∧ (r.simbolo = none ∨ config.premio_nombre = JsVal.undefined)) ∧
      (if r.gana then some [r.simbolo, r.simbolo, r.simbolo]
        else generarSimbolosPerdedor simbolos rnd
          (if orDefault config.premios_restantes 0 > 0 then 1 else 0) fuel) =
        some r.simbolosMostrados := by
  unfold spinSlotTx at h
  split at h
  · simp at h
  · rename_i codigoData hc
    split at h
    · simp at h
    · rename_i hu
      split at h
      · simp at h
      · rename_i config hcfg
        dsimp only at h
        generalize hgv : (decide (orDefault config.premios_restantes 0 > 0) &&
          decide (rnd 0 < orDefault config.probabilidad defaultProbabilidad)) = g at h
        cases g with
        | false =>
          simp only [Bool.false_eq_true, false_and, if_false] at h
          cases hm : generarSimbolosPerdedor simbolos rnd
              (if orDefault config.premios_restantes 0 > 0 then 1 else 0) fuel with
          | none =>
            rw [hm] at h
            simp at h
          | some m =>
            rw [hm] at h
            simp only [Option.some.injEq, Except.ok.injEq, Prod.mk.injEq] at h
            obtain ⟨hr, hs⟩ := h
            subst hr hs
            exact ⟨codigoData, config, hc, by simpa using hu, hcfg, hgv.symm, rfl, rfl, rfl, rfl,
              by simp, hm⟩
        | true =>
          simp only [true_and, if_true] at h
          by_cases hdef : elegir simbolos (rnd 1) = none ∨ config.premio_nombre = JsVal.undefined
          · rw [if_pos hdef] at h
            simp at h
          · rw [if_neg hdef] at h
            simp only [Option.some.injEq, Except.ok.injEq, Prod.mk.injEq] at h
            obtain ⟨hr, hs⟩ := h
            subst hr hs
            exact ⟨codigoData, config, hc, by simpa using hu, hcfg, hgv.symm, rfl, rfl, rfl, rfl,
              by simpa using hdef, rfl⟩

theorem spinSlotTx_ok {s s1 : Store} {codigo : String} {context : Context} {now : ℕ}
    {rnd : ℕ → ℚ} {fuel : ℕ} {r : Resultado}
    (h : spinSlotTx s codigo context now rnd fuel = some (.ok (r, s1))) :
    ∃ codigoData config,
      s.codigos codigo = some codigoData ∧ codigoData.usado = false ∧
      s.config = some config ∧
      r.gana = (decide (orDefault config.premios_restantes 0 > 0) &&
        decide (rnd 0 < orDefault config.probabilidad defaultProbabilidad)) ∧
      s1.codigos = Function.update s.codigos codigo
        (some { codigoData with
                  usado := true, ganador := some r.gana,
                  fecha_uso := some now, userId := uidOrNull context }) ∧
      s1.config = some (if r.gana then
          { config with
              premios_restantes := some (toDouble (orDefault config.premios_restantes 0 - 1)),
              ultimo_ganador := some now }
        else config) ∧
      s1.resultados = s.resultados ++
        [{ codigo := codigo, gano := r.gana, simbolo := r.simbolo,
           premio_nombre := if r.gana then config.premio_nombre else JsVal.null,
           fecha := now, userId := uidOrNull context }] ∧
      r.simbolo = (if r.gana then elegir simbolos (rnd 1) else none) ∧
      r.premio_nombre = (if r.gana then config.premio_nombre else JsVal.null) ∧
      r.premios_restantes =
        (if r.gana then toDouble (orDefault config.premios_restantes 0 - 1)
          else orDefault config.premios_restantes 0) := by
  obtain ⟨codigoData, config, hc, hu, hcfg, hg, hsim, hpn, hpr, hs, -, -⟩ := spinSlotTx_ok_all h
  subst hs
  exact ⟨codigoData, config, hc, hu, hcfg, hg, rfl, rfl, rfl, hsim, hpn, hpr⟩

/-- A win that is committed has a symbol and a `premio_nombre` to write. -/
theorem spinSlotTx_ok_defined {s s1 : Store} {codigo : String} {context : Context} {now : ℕ}
    {rnd : ℕ → ℚ} {fuel : ℕ} {r : Resultado}
    (h : spinSlotTx s codigo context now rnd fuel = some (.ok (r, s1))) (hg : r.gana = true) :
    r.simbolo ≠ none ∧ ∀ config, s.config = some config →
      config.premio_nombre ≠ JsVal.undefined := by
  obtain ⟨codigoData, config, -, -, hcfg, -, -, -, -, -, hdef, -⟩ := spinSlotTx_ok_all h
  simp only [hg, true_and, not_or] at hdef
  refine ⟨hdef.1, ?_⟩
  intro config1 hc1
  rw [hcfg] at hc1
  cases hc1
  exact hdef.2

theorem spinSlotTx_ok_mostrados {s s1 : Store} {codigo : String} {context : Context} {now : ℕ}
    {rnd : ℕ → ℚ} {fuel : ℕ} {r : Resultado}
    (h : spinSlotTx s codigo context now rnd fuel = some (.ok (r, s1))) :
    ∃ config, s.config = some config ∧
      (r.gana = true → r.simbolosMostrados = [r.simbolo, r.simbolo, r.simbolo]) ∧
      (r.gana = false →
        generarSimbolosPerdedor simbolos rnd
          (if orDefault config.premios_restantes 0 > 0 then 1 else 0) fuel =
            some r.simbolosMostrados) := by
  obtain ⟨codigoData, config, -, -, hcfg, -, -, -, -, -, -, hm⟩ := spinSlotTx_ok_all h
  refine ⟨config, hcfg, ?_, ?_⟩
  · intro hg
    rw [hg] at hm
    exact (Option.some.inj hm).symm
  · intro hg
    rw [hg] at hm
    exact hm

theorem spinSlot_ok {fs : Firestore} {s s1 : Store} {data : Option Data} {context : Context}
    {now : ℕ} {rnd : ℕ → ℚ} {fuel : ℕ} {r : Resultado}
    (h : spinSlot fs s data context now rnd fuel = some (.ok r, s1)) :
    ∃ codigo, data = some ⟨.string codigo⟩ ∧ codigo ≠ "" ∧ fs.docOk codigo = true ∧
      spinSlotTx s codigo context now rnd fuel = some (.ok (r, s1)) := by
  unfold spinSlot at h
  split at h
  · simp at h
  · rename_i d
    split at h
    · simp at h
    · rename_i hv
      split at h
      · rename_i codigo hd
        have hdd : d = ⟨.string codigo⟩ := by
          cases d
          simp only at hd
          rw [hd]
        split at h
        · simp at h
        · rename_i hdoc
          refine ⟨codigo, by rw [hdd], ?_, by simpa using hdoc, ?_⟩
          · intro he
            simp [hd, he, JsVal.truthy, JsVal.isString] at hv
          · split at h
            · simp at h
            · simp at h
            · simp at h
            · rename_i r1 s2 htx
              simp only [Option.some.injEq, Prod.mk.injEq, Except.ok.injEq] at h
              rw [htx, h.1, h.2]
      · simp at h

theorem spinSlot_error {fs : Firestore} {s s1 : Store} {data : Option Data} {context : Context}
    {now : ℕ} {rnd : ℕ → ℚ} {fuel : ℕ} {e : Thrown}
    (h : spinSlot fs s data context now rnd fuel = some (.error e, s1)) : s1 = s := by
  unfold spinSlot at h
  split at h
  · simp at h
    exact h.2.symm
  · split at h
    · simp at h
      exact h.2.symm
    · split at h
      · split at h
        · simp at h
          exact h.2.symm
        · split at h
          · simp at h
          · simp at h
            exact h.2.symm
          · simp at h
            exact h.2.symm
          · simp at h
      · simp at h
        exact h.2.symm

/-- What `spinSlot` does with a non-empty string that the library accepts. -/
theorem spinSlot_string (fs : Firestore) (s : Store) (codigo : String) (context : Context)
    (now : ℕ) (rnd : ℕ → ℚ) (fuel : ℕ) (hne : codigo ≠ "") (hdoc : fs.docOk codigo = true) :
    spinSlot fs s (some ⟨.string codigo⟩) context now rnd fuel =
      match spinSlotTx s codigo context now rnd fuel with
      | none => none
      | some (.error (.https error)) =>
        some (.error (.https ⟨.internal, messageOrDefault error.message⟩), s)
      | some (.error .undefinedField) =>
        some (.error (.https ⟨.internal, messageOrDefault fs.undefinedMessage⟩), s)
      | some (.ok (resultado, s1)) => some (.ok resultado, s1) := by
  simp [spinSlot, JsVal.truthy, JsVal.isString, hne, hdoc]

theorem step_cases (fs : Firestore) (s : Store) (c : Call) :
    step fs s c = (none, s) ∨ (∃ e, step fs s c = (some (.error e), s)) ∨
    ∃ r s1, spinSlot fs s c.data c.context c.now c.rnd c.fuel = some (.ok r, s1) ∧
      step fs s c = (some (.ok r), s1) := by
  unfold step
  cases h : spinSlot fs s c.data c.context c.now c.rnd c.fuel with
  | none => exact Or.inl rfl
  | some p =>
    obtain ⟨x, s1⟩ := p
    cases x with
    | error e =>
      have hs : s1 = s := spinSlot_error h
      subst hs
      exact Or.inr (Or.inl ⟨e, rfl⟩)
    | ok r => exact Or.inr (Or.inr ⟨r, s1, rfl, rfl⟩)

theorem run_append (fs : Firestore) (s : Store) (cs ds : List Call) :
    run fs s (cs ++ ds) = run fs (run fs s cs) ds := by
  induction cs generalizing s with
  | nil => rfl
  | cons c cs ih => simp [run, ih]

theorem orDefault_natCast (m : ℕ) : orDefault (some (m : ℚ)) 0 = (m : ℚ) := by
  by_cases h0 : (m : ℚ) = 0
  · simp [orDefault, h0]
  · simp [orDefault, h0]

theorem orDefault_intCast (n : ℤ) : orDefault (some (n : ℚ)) 0 = (n : ℚ) := by
  by_cases h0 : (n : ℚ) = 0
  · simp [orDefault, h0]
  · simp [orDefault, h0]

/-- Up to `2 ^ 53` the counter counts exactly: a win leaves the natural number
one smaller; anything else leaves the counter alone. -/
theorem step_remaining (fs : Firestore) (s : Store) (c : Call) (m : ℕ) (hm : m ≤ 2 ^ 53)
    (h : s.remaining = some (m : ℚ)) :
    ∃ m1 : ℕ, (step fs s c).2.remaining = some (m1 : ℚ) ∧
      m1 + (if isWin (step fs s c).1 then 1 else 0) = m := by
  rcases step_cases fs s c with h1 | ⟨e, h1⟩ | ⟨r, s1, hsp, h1⟩
  · rw [h1]; exact ⟨m, h, by simp [isWin]⟩
  · rw [h1]; exact ⟨m, h, by simp [isWin]⟩
  · rw [h1]
    obtain ⟨codigo, -, -, -, htx⟩ := spinSlot_ok hsp
    obtain ⟨codigoData, config, -, -, hcfg, hg, -, hcfg1, -⟩ := spinSlotTx_ok htx
    have hmc : config.premios_restantes = some (m : ℚ) := by
      simpa [Store.remaining, hcfg] using h
    cases hgana : r.gana with
    | false =>
      refine ⟨m, ?_, by simp [isWin, hgana]⟩
      simp [Store.remaining, hcfg1, hgana, hmc]
    | true =>
      rw [hgana, hmc, orDefault_natCast] at hg
      have hpos : (m : ℚ) > 0 := by
        have := hg.symm
        simp only [Bool.and_eq_true, decide_eq_true_eq] at this
        exact this.1
      have hm0 : m ≠ 0 := by
        intro h0
        subst h0
        simp at hpos
      refine ⟨m - 1, ?_, ?_⟩
      · have hc : ((m - 1 : ℕ) : ℚ) = (m : ℚ) - 1 := by
          rw [Nat.cast_sub (Nat.one_le_iff_ne_zero.mpr hm0)]
          simp
        have hex : toDouble ((m : ℚ) - 1) = (m : ℚ) - 1 := by
          rw [← hc]
          exact toDouble_natCast (m - 1) (by omega)
        simp [Store.remaining, hcfg1, hgana, hmc, orDefault_natCast, hex, hc]
      · simp only [isWin, hgana, if_true]
        omega

theorem run_remaining (fs : Firestore) (s : Store) (cs : List Call) (m : ℕ) (hm : m ≤ 2 ^ 53)
    (h : s.remaining = some (m : ℚ)) :
    ∃ m1 : ℕ, (run fs s cs).remaining = some (m1 : ℚ) ∧
      m1 + (outputs fs s cs).countP isWin = m := by
  induction cs generalizing s m with
  | nil => exact ⟨m, h, by simp [outputs]⟩
  | cons c cs ih =>
    obtain ⟨m1, h1, e1⟩ := step_remaining fs s c m hm h
    obtain ⟨m2, h2, e2⟩ := ih (step fs s c).2 m1 (by omega) h1
    refine ⟨m2, by simpa [run] using h2, ?_⟩
    simp only [outputs, List.countP_cons]
    omega

/-- Whatever its size, a counter that is a natural number on the grid of its
predecessor stays one, and does not grow. -/
theorem step_remaining_le (fs : Firestore) (s : Store) (c : Call) (m : ℕ)
    (h : s.remaining = some (m : ℚ))
    (hgrid : ∃ k : ℤ, (m : ℚ) = (k : ℚ) * 2 ^ ulpExp ((m : ℚ) - 1)) :
    ∃ m1 : ℕ, (step fs s c).2.remaining = some (m1 : ℚ) ∧ m1 ≤ m ∧
      ∃ k : ℤ, (m1 : ℚ) = (k : ℚ) * 2 ^ ulpExp ((m1 : ℚ) - 1) := by
  rcases step_cases fs s c with h1 | ⟨e, h1⟩ | ⟨r, s1, hsp, h1⟩
  · rw [h1]; exact ⟨m, h, le_refl m, hgrid⟩
  · rw [h1]; exact ⟨m, h, le_refl m, hgrid⟩
  · rw [h1]
    obtain ⟨codigo, -, -, -, htx⟩ := spinSlot_ok hsp
    obtain ⟨codigoData, config, -, -, hcfg, hg, -, hcfg1, -⟩ := spinSlotTx_ok htx
    have hmc : config.premios_restantes = some (m : ℚ) := by
      simpa [Store.remaining, hcfg] using h
    cases hgana : r.gana with
    | false =>
      refine ⟨m, ?_, le_refl m, hgrid⟩
      simp [Store.remaining, hcfg1, hgana, hmc]
    | true =>
      rw [hgana, hmc, orDefault_natCast] at hg
      have hpos : (m : ℚ) > 0 := by
        have := hg.symm
        simp only [Bool.and_eq_true, decide_eq_true_eq] at this
        exact this.1
      have hm1 : 1 ≤ m := by
        have : 0 < m := by exact_mod_cast hpos
        omega
      obtain ⟨w, hw, hle, hwgrid⟩ := toDouble_pred m hm1 hgrid
      refine ⟨w, ?_, hle, hwgrid⟩
      simp [Store.remaining, hcfg1, hgana, hmc, orDefault_natCast, hw]

theorem run_remaining_le (fs : Firestore) (s : Store) (cs : List Call) (m : ℕ)
    (h : s.remaining = some (m : ℚ))
    (hgrid : ∃ k : ℤ, (m : ℚ) = (k : ℚ) * 2 ^ ulpExp ((m : ℚ) - 1)) :
    ∃ m1 : ℕ, (run fs s cs).remaining = some (m1 : ℚ) ∧ m1 ≤ m := by
  induction cs generalizing s m with
  | nil => exact ⟨m, h, le_refl m⟩
  | cons c cs ih =>
    obtain ⟨m1, h1, hle1, hg1⟩ := step_remaining_le fs s c m h hgrid
    obtain ⟨m2, h2, hle2⟩ := ih (step fs s c).2 m1 h1 hg1
    exact ⟨m2, by simpa [run] using h2, le_trans hle2 hle1⟩

/-- A counter that is a natural number stays a natural number: a call leaves it
as it was or stores a natural number on the grid of its predecessor. -/
theorem step_remaining_nat (fs : Firestore) (s : Store) (c : Call) (m : ℕ)
    (h : s.remaining = some (m : ℚ)) :
    (step fs s c).2.remaining = some (m : ℚ) ∨
      ∃ w : ℕ, (step fs s c).2.remaining = some (w : ℚ) ∧
        ∃ k : ℤ, (w : ℚ) = (k : ℚ) * 2 ^ ulpExp ((w : ℚ) - 1) := by
  rcases step_cases fs s c with h1 | ⟨e, h1⟩ | ⟨r, s1, hsp, h1⟩
  · rw [h1]; exact Or.inl h
  · rw [h1]; exact Or.inl h
  · rw [h1]
    obtain ⟨codigo, -, -, -, htx⟩ := spinSlot_ok hsp
    obtain ⟨codigoData, config, -, -, hcfg, hg, -, hcfg1, -⟩ := spinSlotTx_ok htx
    have hmc : config.premios_restantes = some (m : ℚ) := by
      simpa [Store.remaining, hcfg] using h
    cases hgana : r.gana with
    | false =>
      left
      simp [Store.remaining, hcfg1, hgana, hmc]
    | true =>
      right
      rw [hgana, hmc, orDefault_natCast] at hg
      have hpos : (m : ℚ) > 0 := by
        have := hg.symm
        simp only [Bool.and_eq_true, decide_eq_true_eq] at this
        exact this.1
      have hm1 : 1 ≤ m := by
        have : 0 < m := by exact_mod_cast hpos
        omega
      obtain ⟨x, rfl⟩ : ∃ x : ℕ, m = x + 1 := ⟨m - 1, by omega⟩
      have hx : ((x + 1 : ℕ) : ℚ) - 1 = (x : ℚ) := by push_cast; ring
      obtain ⟨w, hw, hwgrid⟩ := toDouble_natCast_grid x
      refine ⟨w, ?_, hwgrid⟩
      simp only [Store.remaining, hcfg1, hgana, hmc, orDefault_natCast, if_true, hx, hw]

theorem run_remaining_nat (fs : Firestore) (s : Store) (cs : List Call) (m : ℕ)
    (h : s.remaining = some (m : ℚ)) :
    ∃ m1 : ℕ, (run fs s cs).remaining = some (m1 : ℚ) := by
  induction cs generalizing s with
  | nil => exact ⟨m, h⟩
  | cons c cs ih =>
    rcases step_remaining_nat fs s c m h with h1 | ⟨w, hw, hg⟩
    · exact ih (step fs s c).2 h1
    · obtain ⟨m2, h2, -⟩ := run_remaining_le fs (step fs s c).2 cs w hw hg
      exact ⟨m2, by simpa [run] using h2⟩

/-- Each call appends a winning record exactly when its caller gets a win. -/
theorem step_ledger (fs : Firestore) (s : Store) (c : Call) :
    (step fs s c).2.resultados.countP (fun d => d.gano) =
      s.resultados.countP (fun d => d.gano) + (if isWin (step fs s c).1 then 1 else 0) := by
  rcases step_cases fs s c with h1 | ⟨e, h1⟩ | ⟨r, s1, hsp, h1⟩
  · rw [h1]; simp [isWin]
  · rw [h1]; simp [isWin]
  · rw [h1]
    obtain ⟨codigo, -, -, -, htx⟩ := spinSlot_ok hsp
    obtain ⟨codigoData, config, -, -, -, -, -, -, hres, -⟩ := spinSlotTx_ok htx
    by_cases hgb : r.gana = true
    · simp [hres, List.countP_append, isWin, hgb, List.countP_cons]
    · simp [hres, List.countP_append, isWin, hgb, List.countP_cons]

theorem run_ledger (fs : Firestore) (s : Store) (cs : List Call) :
    (run fs s cs).resultados.countP (fun d => d.gano) =
      s.resultados.countP (fun d => d.gano) + (outputs fs s cs).countP isWin := by
  induction cs generalizing s with
  | nil => simp [run, outputs]
  | cons c cs ih =>
    simp only [run, outputs, List.countP_cons]
    rw [ih, step_ledger]
    omega

/-- A call never touches a record that is already used. -/
theorem step_used (fs : Firestore) (s : Store) (c : Call) (codigo : String) (doc : CodigoDoc)
    (h : s.codigos codigo = some doc) (hu : doc.usado = true) :
    (step fs s c).2.codigos codigo = some doc := by
  rcases step_cases fs s c with h1 | ⟨e, h1⟩ | ⟨r, s1, hsp, h1⟩
  · rw [h1]; exact h
  · rw [h1]; exact h
  · rw [h1]
    obtain ⟨codigo1, -, -, -, htx⟩ := spinSlot_ok hsp
    obtain ⟨codigoData, config, hc, hnu, -, -, hcod, -⟩ := spinSlotTx_ok htx
    have hne : codigo ≠ codigo1 := by
      intro he
      subst he
      rw [h] at hc
      cases hc
      rw [hu] at hnu
      cases hnu
    simp [hcod, Function.update_noteq hne, h]

theorem run_used (fs : Firestore) (s : Store) (cs : List Call) (codigo : String)
    (doc : CodigoDoc) (h : s.codigos codigo = some doc) (hu : doc.usado = true) :
    (run fs s cs).codigos codigo = some doc := by
  induction cs generalizing s with
  | nil => exact h
  | cons c cs ih => exact ih (step fs s c).2 (step_used fs s c codigo doc h hu)

/-! ## Concrete evaluations -/

theorem defaultProbabilidad_pos : 0 < defaultProbabilidad := by
  unfold defaultProbabilidad
  norm_num

theorem toDouble_int_pred (n : ℤ) (h1 : 0 < n) (h2 : n ≤ 2 ^ 53) :
    toDouble ((n : ℚ) - 1) = (n : ℚ) - 1 := by
  obtain ⟨m, rfl⟩ : ∃ m : ℕ, n = (m : ℤ) + 1 := ⟨(n - 1).toNat, by omega⟩
  have hm : m < 2 ^ 53 := by
    have : (m : ℤ) < 2 ^ 53 := by omega
    exact_mod_cast this
  have hc : (((m : ℤ) + 1 : ℤ) : ℚ) - 1 = (m : ℚ) := by push_cast; ring
  rw [hc]
  exact toDouble_natCast m hm

theorem toDouble_big : toDouble (10 ^ 16) = 10 ^ 16 := by
  apply toDouble_of_grid _ (5 * 10 ^ 15)
  rw [ulpExp_eq (10 ^ 16) 53 (by norm_num) (by norm_num) (by norm_num) (by norm_num)]
  norm_num

theorem elegir_simbolos_zero : elegir simbolos 0 = some "💎" := by
  simp [elegir, jsIndex, simbolos, toDouble_zero]

theorem elegir_simbolos_half : elegir simbolos (1 / 2) = some "👑" := by
  have hlen : ((simbolos.length : ℕ) : ℚ) = 5 := by simp [simbolos]
  have hp : (1 / 2 : ℚ) * 5 = 5 / 2 := by norm_num
  have h : ⌊(5 / 2 : ℚ)⌋ = 2 := by
    rw [Int.floor_eq_iff]
    norm_num
  unfold elegir
  rw [hlen, hp, toDouble_five_halves, h]
  simp [jsIndex, simbolos]

/-- The draw `0.6` picks the symbol of index `3`: the product is rounded to `3`
before the floor is taken. -/
theorem elegir_simbolos_six_tenths :
    elegir simbolos (5404319552844595 / 2 ^ 53) = some "🍀" := by
  have hlen : ((simbolos.length : ℕ) : ℚ) = 5 := by simp [simbolos]
  unfold elegir
  rw [hlen, toDouble_six_tenths.1]
  simp [jsIndex, simbolos]

theorem unitDraws_zeros : UnitDraws zeros := by
  intro i
  simp [zeros, toDouble_zero]

theorem unitDraws_mixed : UnitDraws mixed := by
  intro i
  unfold mixed
  split
  · exact ⟨toDouble_half, by norm_num, by norm_num⟩
  · exact ⟨toDouble_zero, le_refl 0, by norm_num⟩

theorem spinSlot_storeWonA :
    spinSlot fsEx (storeWith (some lastPrize)) (some ⟨.string "A"⟩) ⟨none⟩ 7 zeros 0 =
      some (.ok wonA, storeWonA) := by
  simp [spinSlot, spinSlotTx, storeWith, lastPrize, zeros, wonA, storeWonA, fsEx, JsVal.truthy,
    JsVal.isString, orDefault, uidOrNull, elegir_simbolos_zero, toDouble_zero]

theorem spinSlot_storeWonBig :
    spinSlot fsEx (storeWith (some bigPrize)) (some ⟨.string "A"⟩) ⟨none⟩ 7 zeros 0 =
      some (.ok wonBig, storeWonBig) := by
  have hor : orDefault (some ((10 : ℚ) ^ 16)) 0 = 10 ^ 16 := by norm_num [orDefault]
  have hor1 : orDefault (some (1 : ℚ)) defaultProbabilidad = 1 := by norm_num [orDefault]
  rw [spinSlot_string fsEx _ "A" _ _ _ _ (by decide) (by simp [fsEx])]
  simp only [spinSlotTx, storeWith, bigPrize, if_true, hor, hor1, zeros, toDouble_big_pred,
    elegir_simbolos_zero]
  simp [wonBig, storeWonBig, storeWith, bigPrize, uidOrNull]

/-! ## C1: a code is redeemed at most once -/

/-- C1: after a successful `spinSlot` for a code, a second `spinSlot` for the
same code, with any caller, time, draws and fuel, is stopped by the check of
`usado` (the transaction throws `already-exists`), returns an error to its
caller, and leaves the store exactly as the first call left it. -/
theorem spinSlot_twice_rejected (fs : Firestore) (s s1 : Store) (data : Option Data)
    (context : Context) (now : ℕ) (rnd : ℕ → ℚ) (fuel : ℕ) (r : Resultado)
    (h : spinSlot fs s data context now rnd fuel = some (.ok r, s1))
    (context2 : Context) (now2 : ℕ) (rnd2 : ℕ → ℚ) (fuel2 : ℕ) :
    ∃ codigo, data = some ⟨.string codigo⟩ ∧
      spinSlotTx s1 codigo context2 now2 rnd2 fuel2 =
        some (.error (.https ⟨.alreadyExists, "Código ya usado"⟩)) ∧
      spinSlot fs s1 data context2 now2 rnd2 fuel2 =
        some (.error (.https ⟨.internal, "Código ya usado"⟩), s1) := by
  obtain ⟨codigo, hd, hne, hdoc, htx⟩ := spinSlot_ok h
  obtain ⟨codigoData, config, -, -, -, -, hcod, -⟩ := spinSlotTx_ok htx
  have htx2 : spinSlotTx s1 codigo context2 now2 rnd2 fuel2 =
      some (.error (.https ⟨.alreadyExists, "Código ya usado"⟩)) := by
    simp [spinSlotTx, hcod]
  refine ⟨codigo, hd, htx2, ?_⟩
  rw [hd, spinSlot_string fs s1 codigo _ _ _ _ hne hdoc, htx2]
  simp [messageOrDefault]

/-- Witness of C1: code `A` is redeemed (a win), then redeemed again by
another caller. -/
theorem spinSlot_twice_rejected_witness :
    spinSlot fsEx (storeWith (some lastPrize)) (some ⟨.string "A"⟩) ⟨none⟩ 7 zeros 0 =
        some (.ok wonA, storeWonA) ∧
      ∃ codigo, (some ⟨.string "A"⟩ : Option Data) = some ⟨.string codigo⟩ ∧
        spinSlotTx storeWonA codigo ⟨some "u2"⟩ 9 zeros 3 =
          some (.error (.https ⟨.alreadyExists, "Código ya usado"⟩)) ∧
        spinSlot fsEx storeWonA (some ⟨.string "A"⟩) ⟨some "u2"⟩ 9 zeros 3 =
          some (.error (.https ⟨.internal, "Código ya usado"⟩), storeWonA) :=
  ⟨spinSlot_storeWonA,
    spinSlot_twice_rejected _ _ _ _ _ _ _ _ _ spinSlot_storeWonA ⟨some "u2"⟩ 9 zeros 3⟩

/-! ## C2: the winner flag and the decrement go together -/

/-- C2 (counterexample): the counter holds the integer `1e16` and the call
wins: the code record is written with `ganador = true`, and the counter stored
afterwards is `1e16`, not `1e16 - 1`, because `1e16 - 1` is `1e16` in
doubles. -/
theorem spinSlot_winner_big_counter :
    spinSlot fsEx (storeWith (some bigPrize)) (some ⟨.string "A"⟩) ⟨none⟩ 7 zeros 0 =
      some (.ok wonBig, storeWonBig) ∧
    (storeWith (some bigPrize)).remaining = some (((10 ^ 16 : ℤ) : ℚ)) ∧
    toDouble (((10 ^ 16 : ℤ) : ℚ)) = (((10 ^ 16 : ℤ) : ℚ)) ∧
    storeWonBig.codigos "A" = some ⟨true, some true, some 7, none⟩ ∧
    storeWonBig.remaining = some (((10 ^ 16 : ℤ) : ℚ)) ∧
    storeWonBig.remaining ≠ some (((10 ^ 16 : ℤ) : ℚ) - 1) := by
  refine ⟨spinSlot_storeWonBig, by norm_num [Store.remaining, storeWith, bigPrize], ?_,
    by simp [storeWonBig], by norm_num [Store.remaining, storeWonBig], ?_⟩
  · have := toDouble_big
    push_cast
    exact this
  · norm_num [Store.remaining, storeWonBig]

/-- C2 (amended): a successful `spinSlot` from a store whose
`premios_restantes` is an integer `n ≤ 2 ^ 53` writes the code record with
`usado = true` and `ganador` equal to the returned decision; `ganador` is `true`
exactly when the stored `premios_restantes` afterwards is `n - 1`, in which case
`ultimo_ganador` is set to the time of the call; when `ganador` is `false` the
document `config/actual` is unchanged. -/
theorem spinSlot_winner_iff_decrement (fs : Firestore) (s s1 : Store) (data : Option Data)
    (context : Context) (now : ℕ) (rnd : ℕ → ℚ) (fuel : ℕ) (r : Resultado)
    (config : ConfigDoc) (n : ℤ)
    (h : spinSlot fs s data context now rnd fuel = some (.ok r, s1))
    (hcfg : s.config = some config) (hn : config.premios_restantes = some (n : ℚ))
    (hb : n ≤ 2 ^ 53) :
    ∃ codigo doc config1, data = some ⟨.string codigo⟩ ∧
      s1.codigos codigo = some doc ∧ doc.usado = true ∧ doc.ganador = some r.gana ∧
      s1.config = some config1 ∧
      (doc.ganador = some true ↔ config1.premios_restantes = some ((n : ℚ) - 1)) ∧
      (doc.ganador = some true → config1.ultimo_ganador = some now) ∧
      (doc.ganador = some false → config1 = config) := by
  obtain ⟨codigo, hd, -, -, htx⟩ := spinSlot_ok h
  obtain ⟨codigoData, config0, -, -, hcfg0, hg, hcod, hcfg1, -⟩ := spinSlotTx_ok htx
  rw [hcfg] at hcfg0
  cases hcfg0
  refine ⟨codigo, ⟨true, some r.gana, some now, uidOrNull context⟩, _, hd, by simp [hcod],
    rfl, rfl, hcfg1, ?_, ?_, ?_⟩
  · cases hgana : r.gana with
    | false =>
      simp [hgana, hn]
      intro hh
      linarith
    | true =>
      rw [hgana, hn, orDefault_intCast] at hg
      have hpos : (n : ℚ) > 0 := by
        have := hg.symm
        simp only [Bool.and_eq_true, decide_eq_true_eq] at this
        exact this.1
      have hpos' : 0 < n := by exact_mod_cast hpos
      simp [hgana, hn, orDefault_intCast, toDouble_int_pred n hpos' hb]
  · intro hw
    simp only [Option.some.injEq] at hw
    simp [hw]
  · intro hl
    simp only [Option.some.injEq] at hl
    simp [hl]

/-- Witness of C2 (amended): the winning redemption of `A` from one prize
left. -/
theorem spinSlot_winner_iff_decrement_witness :
    (spinSlot fsEx (storeWith (some lastPrize)) (some ⟨.string "A"⟩) ⟨none⟩ 7 zeros 0 =
        some (.ok wonA, storeWonA) ∧
      (storeWith (some lastPrize)).config = some lastPrize ∧
      lastPrize.premios_restantes = some ((1 : ℤ) : ℚ) ∧ (1 : ℤ) ≤ 2 ^ 53) ∧
    ∃ codigo doc config1, (some ⟨.string "A"⟩ : Option Data) = some ⟨.string codigo⟩ ∧
      storeWonA.codigos codigo = some doc ∧ doc.usado = true ∧
      doc.ganador = some wonA.gana ∧ storeWonA.config = some config1 ∧
      (doc.ganador = some true ↔ config1.premios_restantes = some (((1 : ℤ) : ℚ) - 1)) ∧
      (doc.ganador = some true → config1.ultimo_ganador = some 7) ∧
      (doc.ganador = some false → config1 = lastPrize) :=
  ⟨⟨spinSlot_storeWonA, rfl, by simp [lastPrize], by norm_num⟩,
    spinSlot_winner_iff_decrement _ _ _ _ _ _ _ _ _ lastPrize 1 spinSlot_storeWonA rfl
      (by simp [lastPrize]) (by norm_num)⟩

/-! ## C3, C4: the pool never goes negative and bounds the wins -/

theorem run_callA :
    run fsEx (storeWith (some lastPrize)) [callA] = storeWonA := by
  simp [run, step, callA, spinSlot_storeWonA]

theorem remaining_lastPrize :
    (storeWith (some lastPrize)).remaining = some ((1 : ℤ) : ℚ) := by
  simp [Store.remaining, storeWith, lastPrize]

theorem toDouble_one : toDouble (((1 : ℤ) : ℚ)) = (((1 : ℤ) : ℚ)) := by
  have := toDouble_natCast 1 (by norm_num)
  simpa using this

/-- C3: from a store whose `premios_restantes` is an integer `n ≥ 0`, after any
number `k` of the calls of any sequence `cs`, applied one after another (any
payloads, callers, times, draws and fuel, returning or not), the stored
`premios_restantes` is an integer `m ≥ 0`; and `m ≤ n` when `n` is a double (as
is every number that JavaScript reads). -/
theorem run_remaining_nonneg (fs : Firestore) (s : Store) (n : ℤ) (cs : List Call) (k : ℕ)
    (hn : 0 ≤ n) (h : s.remaining = some (n : ℚ)) :
    ∃ m : ℤ, (run fs s (cs.take k)).remaining = some (m : ℚ) ∧ 0 ≤ m ∧
      (toDouble (n : ℚ) = (n : ℚ) → m ≤ n) := by
  lift n to ℕ using hn
  have h1 : s.remaining = some ((n : ℕ) : ℚ) := by simpa using h
  by_cases hd : toDouble ((n : ℕ) : ℚ) = ((n : ℕ) : ℚ)
  · obtain ⟨m1, hm1, hle⟩ := run_remaining_le fs s (cs.take k) n h1 (grid_pred_of_toDouble n hd)
    refine ⟨(m1 : ℤ), by simpa using hm1, by positivity, fun _ => ?_⟩
    exact_mod_cast hle
  · obtain ⟨m1, hm1⟩ := run_remaining_nat fs s (cs.take k) n h1
    refine ⟨(m1 : ℤ), by simpa using hm1, by positivity, fun hd1 => ?_⟩
    exact absurd (by simpa using hd1) hd

/-- Witness of C3: one prize left, the code `A` redeemed twice and `B` once;
the state after the first two calls. -/
theorem run_remaining_nonneg_witness :
    ((0 : ℤ) ≤ 1 ∧ (storeWith (some lastPrize)).remaining = some ((1 : ℤ) : ℚ)) ∧
    ∃ m : ℤ, (run fsEx (storeWith (some lastPrize)) ([callA, callA2, callB].take 2)).remaining =
      some (m : ℚ) ∧ 0 ≤ m ∧ (toDouble (((1 : ℤ) : ℚ)) = (((1 : ℤ) : ℚ)) → m ≤ 1) :=
  ⟨⟨by decide, remaining_lastPrize⟩,
    run_remaining_nonneg fsEx (storeWith (some lastPrize)) 1 [callA, callA2, callB] 2 (by decide)
      remaining_lastPrize⟩

theorem codigoN_ne_empty (i : ℕ) : codigoN i ≠ "" := by
  intro h
  have := congrArg String.length h
  simp [codigoN, String.length] at this

theorem numeroDe_codigoN (i : ℕ) : numeroDe (codigoN i) = i := by
  have hmap : List.map ((fun ch : Char => if ch = 'a' then 0 else 1) ∘
      (fun d : ℕ => if d = 0 then 'a' else 'b')) (Nat.digits 2 i) = Nat.digits 2 i := by
    conv_rhs => rw [← List.map_id (Nat.digits 2 i)]
    apply List.map_congr_left
    intro d hd
    have hlt : d < 2 := Nat.digits_lt_base (by norm_num) hd
    interval_cases d <;> simp
  simp only [numeroDe, codigoN, List.tail_cons, List.map_map, hmap]
  exact Nat.ofDigits_digits 2 i

theorem codigoN_injective (i j : ℕ) (h : codigoN i = codigoN j) : i = j := by
  have := congrArg numeroDe h
  simpa [numeroDe_codigoN] using this

/-- While the counter is stuck at `1e16`, every call for a fresh code wins. -/
theorem bigCalls_all_win (m k : ℕ) (s : Store)
    (hc : ∀ j, k ≤ j → j < k + m → s.codigos (codigoN j) = some ⟨false, none, none, none⟩)
    (hcfg : ∃ ug, s.config = some ⟨some (10 ^ 16), some 1, .string "Premio", ug⟩) :
    (outputs fsAll s (bigCalls k m)).countP isWin = m := by
  induction m generalizing k s with
  | zero => simp [bigCalls, outputs]
  | succ m ih =>
    obtain ⟨ug, hcfg⟩ := hcfg
    have hor : orDefault (some ((10 : ℚ) ^ 16)) 0 = 10 ^ 16 := by norm_num [orDefault]
    have hor1 : orDefault (some (1 : ℚ)) defaultProbabilidad = 1 := by norm_num [orDefault]
    have hsp : spinSlot fsAll s (some ⟨.string (codigoN k)⟩) ⟨none⟩ 0 zeros 0 =
        some (.ok ⟨true, some "💎", [some "💎", some "💎", some "💎"], .string "Premio", 10 ^ 16⟩,
          { codigos := Function.update s.codigos (codigoN k)
              (some ⟨true, some true, some 0, none⟩),
            config := some ⟨some (10 ^ 16), some 1, .string "Premio", some 0⟩,
            resultados := s.resultados ++
              [⟨codigoN k, true, some "💎", .string "Premio", 0, none⟩] }) := by
      rw [spinSlot_string fsAll _ (codigoN k) _ _ _ _ (codigoN_ne_empty k) rfl]
      simp only [spinSlotTx, hc k (le_refl k) (by omega), hcfg, hor, hor1, zeros,
        toDouble_big_pred,
        elegir_simbolos_zero]
      simp [uidOrNull]
    have hstep : step fsAll s ⟨some ⟨.string (codigoN k)⟩, ⟨none⟩, 0, zeros, 0⟩ =
        (some (.ok ⟨true, some "💎", [some "💎", some "💎", some "💎"], .string "Premio",
            10 ^ 16⟩),
          { codigos := Function.update s.codigos (codigoN k)
              (some ⟨true, some true, some 0, none⟩),
            config := some ⟨some (10 ^ 16), some 1, .string "Premio", some 0⟩,
            resultados := s.resultados ++
              [⟨codigoN k, true, some "💎", .string "Premio", 0, none⟩] }) := by
      simp only [step, hsp]
    simp only [bigCalls, outputs, hstep, List.countP_cons, isWin, if_true]
    rw [ih (k + 1)]
    · intro j hj hj2
      have hne : codigoN j ≠ codigoN k := by
        intro he
        have := codigoN_injective j k he
        omega
      simp only [Function.update_noteq hne]
      exact hc j (by omega) (by omega)
    · exact ⟨some 0, rfl⟩

theorem bigStore_codigoN (j : ℕ) (hj : j < 10 ^ 16 + 1) :
    bigStore.codigos (codigoN j) = some ⟨false, none, none, none⟩ := by
  have h1 : numeroDe (codigoN j) ≤ 10 ^ 16 ∧ codigoN j = codigoN (numeroDe (codigoN j)) := by
    rw [numeroDe_codigoN]
    exact ⟨by omega, rfl⟩
  simp only [bigStore]
  rw [if_pos h1]

theorem remaining_bigStore : bigStore.remaining = some (((10 ^ 16 : ℤ) : ℚ)) := by
  norm_num [Store.remaining, bigStore, bigPrize]

/-- C4 (counterexample): the counter holds the integer `n = 1e16`, a double;
the store has the `1e16 + 1` unused codes `codigoN 0`, ..., `codigoN (10 ^ 16)`
(of at most `55` letters each) and `probabilidad` is `1`, so that every draw
below `1` wins.  Each win leaves the counter at `1e16`, because `1e16 - 1` is
`1e16` in doubles; so the `1e16 + 1` calls that redeem these codes one after
the other all return `gana = true`: more wins than `n`. -/
theorem run_wins_exceed_big_counter :
    (0 : ℤ) ≤ 10 ^ 16 ∧ bigStore.remaining = some (((10 ^ 16 : ℤ) : ℚ)) ∧
    toDouble (((10 ^ 16 : ℤ) : ℚ)) = (((10 ^ 16 : ℤ) : ℚ)) ∧
    (10 ^ 16 : ℤ) < ((outputs fsAll bigStore (bigCalls 0 (10 ^ 16 + 1))).countP isWin : ℤ) := by
  refine ⟨by norm_num, remaining_bigStore, ?_, ?_⟩
  · have := toDouble_big
    push_cast
    exact this
  · rw [bigCalls_all_win (10 ^ 16 + 1) 0 bigStore
      (fun j _ hj => bigStore_codigoN j (by omega)) ⟨none, rfl⟩]
    norm_num

/-- C4 (amended): from a store whose `premios_restantes` is an integer `n` with
`0 ≤ n ≤ 2 ^ 53`, in any sequence of calls applied one after another the number
of calls that return `gana = true` is at most `n`; and that number is the
number of records with `gano = true` that the sequence added to `resultados`. -/
theorem run_wins_le_initial (fs : Firestore) (s : Store) (n : ℤ) (cs : List Call)
    (hn : 0 ≤ n) (hb : n ≤ 2 ^ 53) (h : s.remaining = some (n : ℚ)) :
    ((outputs fs s cs).countP isWin : ℤ) ≤ n ∧
    (run fs s cs).resultados.countP (fun d => d.gano) =
      s.resultados.countP (fun d => d.gano) + (outputs fs s cs).countP isWin := by
  lift n to ℕ using hn
  have h1 : s.remaining = some ((n : ℕ) : ℚ) := by simpa using h
  have hb1 : n ≤ 2 ^ 53 := by exact_mod_cast hb
  obtain ⟨m1, -, e1⟩ := run_remaining fs s cs n hb1 h1
  refine ⟨?_, run_ledger fs s cs⟩
  have : (outputs fs s cs).countP isWin ≤ n := by omega
  exact_mod_cast this

/-- Witness of C4 (amended): one prize left, the code `A` redeemed twice and
`B` once. -/
theorem run_wins_le_initial_witness :
    ((0 : ℤ) ≤ 1 ∧ (1 : ℤ) ≤ 2 ^ 53 ∧
      (storeWith (some lastPrize)).remaining = some ((1 : ℤ) : ℚ)) ∧
    (((outputs fsEx (storeWith (some lastPrize)) [callA, callA2, callB]).countP isWin : ℤ) ≤ 1 ∧
      (run fsEx (storeWith (some lastPrize)) [callA, callA2, callB]).resultados.countP
          (fun d => d.gano) =
        (storeWith (some lastPrize)).resultados.countP (fun d => d.gano) +
          (outputs fsEx (storeWith (some lastPrize)) [callA, callA2, callB]).countP isWin) :=
  ⟨⟨by decide, by norm_num, remaining_lastPrize⟩,
    run_wins_le_initial fsEx (storeWith (some lastPrize)) 1 [callA, callA2, callB] (by decide)
      (by norm_num) remaining_lastPrize⟩

/-! ## C5: `probabilidad = 0` -/

/-- C5 (the code at the failing input): with `probabilidad = 0` stored and one
prize left, the draws `zeros` (all in `[0, 1)`) make `spinSlot` return
`gana = true` and bring `premios_restantes` from `1` to `0`: the stored `0` is
replaced by the default `0.1` in `config.probabilidad || 0.1`. -/
theorem spinSlot_zero_probability_wins :
    UnitDraws zeros ∧
    (storeWith (some zeroProbability)).codigos "A" = some ⟨false, none, none, none⟩ ∧
    (storeWith (some zeroProbability)).config =
      some ⟨some 1, some 0, .string "Premio", none⟩ ∧
    ∃ r s1, spinSlot fsEx (storeWith (some zeroProbability)) (some ⟨.string "A"⟩) ⟨none⟩ 7
          zeros 0 = some (.ok r, s1) ∧
      r.gana = true ∧ r.premios_restantes = 0 ∧ s1.remaining = some 0 := by
  refine ⟨unitDraws_zeros, by simp [storeWith], rfl, wonA,
    { codigos := Function.update (storeWith (some zeroProbability)).codigos "A"
        (some ⟨true, some true, some 7, none⟩),
      config := some ⟨some 0, some 0, .string "Premio", some 7⟩,
      resultados := [⟨"A", true, some "💎", .string "Premio", 7, none⟩] }, ?_, rfl, rfl, rfl⟩
  simp [spinSlot, spinSlotTx, storeWith, zeroProbability, zeros, wonA, fsEx, JsVal.truthy,
    JsVal.isString, orDefault, uidOrNull, elegir_simbolos_zero, toDouble_zero,
    defaultProbabilidad_pos]

/-! ## C6: no prize left -/

theorem generarSimbolosPerdedor_zeros (i fuel : ℕ) :
    generarSimbolosPerdedor simbolos zeros i fuel = none := by
  induction fuel generalizing i with
  | zero => rfl
  | succ fuel ih => simp [generarSimbolosPerdedor, zeros, ih (i + 3)]

/-- C6 (counterexample): the code `A` exists unused, `premios_restantes = 0`,
`probabilidad = 1`, every draw is `0` (in `[0, 1)`), and `spinSlot` returns
nothing, whatever the fuel: `generarSimbolosPerdedor` draws three equal symbols
in every round. -/
theorem spinSlot_sold_out_no_return :
    UnitDraws zeros ∧
    (storeWith (some soldOut)).codigos "A" = some ⟨false, none, none, none⟩ ∧
    (storeWith (some soldOut)).config = some ⟨some 0, some 1, .string "Premio", none⟩ ∧
    ¬ ∃ fuel r s1, spinSlot fsEx (storeWith (some soldOut)) (some ⟨.string "A"⟩) ⟨none⟩ 7 zeros
      fuel = some (r, s1) := by
  refine ⟨unitDraws_zeros, by simp [storeWith], rfl, ?_⟩
  rintro ⟨fuel, r, s1, h⟩
  simp [spinSlot, spinSlotTx, storeWith, soldOut, fsEx, JsVal.truthy, JsVal.isString,
    orDefault, generarSimbolosPerdedor_zeros] at h

/-- C6 (amended): when the code exists unused and `premios_restantes = 0`, for
every `probabilidad`, caller, time, draws and fuel, `spinSlot` returns exactly
when `generarSimbolosPerdedor`, reading the draws from the first one, returns
within the fuel; it then returns `gana = false` with those symbols and
`premios_restantes = 0`, and leaves `config/actual` unchanged.  It never
returns a win or an error. -/
theorem spinSlot_sold_out (fs : Firestore) (s : Store) (codigo : String)
    (codigoData : CodigoDoc) (config : ConfigDoc) (context : Context) (now : ℕ)
    (rnd : ℕ → ℚ) (fuel : ℕ)
    (hne : codigo ≠ "") (hdoc : fs.docOk codigo = true)
    (hc : s.codigos codigo = some codigoData)
    (hu : codigoData.usado = false) (hcfg : s.config = some config)
    (h0 : config.premios_restantes = some 0) :
    (generarSimbolosPerdedor simbolos rnd 0 fuel = none ∧
      spinSlot fs s (some ⟨.string codigo⟩) context now rnd fuel = none) ∨
    ∃ r s1, spinSlot fs s (some ⟨.string codigo⟩) context now rnd fuel = some (.ok r, s1) ∧
      r.gana = false ∧ generarSimbolosPerdedor simbolos rnd 0 fuel = some r.simbolosMostrados ∧
      r.premios_restantes = 0 ∧ s1.config = some config := by
  rw [spinSlot_string fs s codigo _ _ _ _ hne hdoc]
  cases hg : generarSimbolosPerdedor simbolos rnd 0 fuel with
  | none =>
    left
    refine ⟨rfl, ?_⟩
    simp [spinSlotTx, hc, hu, hcfg, h0, orDefault, hg]
  | some m =>
    right
    refine ⟨⟨false, none, m, .null, 0⟩,
      { codigos := Function.update s.codigos codigo
          (some ⟨true, some false, some now, uidOrNull context⟩),
        config := some config,
        resultados := s.resultados ++
          [⟨codigo, false, none, .null, now, uidOrNull context⟩] },
      ?_, rfl, rfl, rfl, rfl⟩
    simp [spinSlotTx, hc, hu, hcfg, h0, orDefault, hg]

/-- Witness of C6 (amended): the code `A`, no prize left, draws whose first
round is not all equal. -/
theorem spinSlot_sold_out_witness :
    ("A" ≠ "" ∧ fsEx.docOk "A" = true ∧
      (storeWith (some soldOut)).codigos "A" = some ⟨false, none, none, none⟩ ∧
      (⟨false, none, none, none⟩ : CodigoDoc).usado = false ∧
      (storeWith (some soldOut)).config = some soldOut ∧
      soldOut.premios_restantes = some 0) ∧
    ((generarSimbolosPerdedor simbolos mixed 0 2 = none ∧
        spinSlot fsEx (storeWith (some soldOut)) (some ⟨.string "A"⟩) ⟨none⟩ 7 mixed 2 = none) ∨
      ∃ r s1, spinSlot fsEx (storeWith (some soldOut)) (some ⟨.string "A"⟩) ⟨none⟩ 7 mixed 2 =
          some (.ok r, s1) ∧
        r.gana = false ∧ generarSimbolosPerdedor simbolos mixed 0 2 = some r.simbolosMostrados ∧
        r.premios_restantes = 0 ∧ s1.config = some soldOut) :=
  ⟨⟨by decide, by simp [fsEx], by simp [storeWith], rfl, rfl, rfl⟩,
    spinSlot_sold_out fsEx (storeWith (some soldOut)) "A" ⟨false, none, none, none⟩ soldOut
      ⟨none⟩ 7 mixed 2 (by decide) (by simp [fsEx]) (by simp [storeWith]) rfl rfl rfl⟩

/-! ## C7: a failed call changes nothing -/

theorem spinSlotTx_error {s : Store} {codigo : String} {context : Context} {now : ℕ}
    {rnd : ℕ → ℚ} {fuel : ℕ} {e : TxThrown}
    (h : spinSlotTx s codigo context now rnd fuel = some (.error e)) :
    s.codigos codigo = none ∨ (∃ d, s.codigos codigo = some d ∧ d.usado = true) ∨
      s.config = none ∨
      ∃ config, s.config = some config ∧
        (config.premio_nombre = JsVal.undefined ∨ elegir simbolos (rnd 1) = none) := by
  unfold spinSlotTx at h
  split at h
  · rename_i hc
    exact Or.inl hc
  · rename_i codigoData hc
    split at h
    · rename_i hu
      exact Or.inr (Or.inl ⟨codigoData, hc, hu⟩)
    · split at h
      · rename_i hcfg
        exact Or.inr (Or.inr (Or.inl hcfg))
      · rename_i config hcfg
        right; right; right
        refine ⟨config, hcfg, ?_⟩
        dsimp only at h
        generalize hgv : (decide (orDefault config.premios_restantes 0 > 0) &&
          decide (rnd 0 < orDefault config.probabilidad defaultProbabilidad)) = g at h
        cases g with
        | false =>
          simp only [Bool.false_eq_true, false_and, if_false] at h
          cases hm : generarSimbolosPerdedor simbolos rnd
              (if orDefault config.premios_restantes 0 > 0 then 1 else 0) fuel with
          | none =>
            rw [hm] at h
            simp at h
          | some m =>
            rw [hm] at h
            simp at h
        | true =>
          simp only [true_and, if_true] at h
          by_cases hdef : elegir simbolos (rnd 1) = none ∨ config.premio_nombre = JsVal.undefined
          · exact hdef.symm
          · rw [if_neg hdef] at h
            simp at h

theorem spinSlot_usedB :
    spinSlot fsEx (storeWith (some lastPrize)) (some ⟨.string "B"⟩) ⟨none⟩ 11 zeros 3 =
      some (.error (.https ⟨.internal, "Código ya usado"⟩), storeWith (some lastPrize)) := by
  simp [spinSlot, spinSlotTx, storeWith, fsEx, JsVal.truthy, JsVal.isString, messageOrDefault]

/-- C7: a call of `spinSlot` that fails leaves the store exactly as it was
(every code record, `config/actual` and `resultados`).  A call fails only for
an invalid input (a payload that is `null` or `undefined`, a `codigo` that is
not a string or is empty, an id that the library refuses), an absent code
record, a used code, an absent `config/actual`, or a win whose `premio_nombre`
or symbol is `undefined`. -/
theorem spinSlot_failure_atomic (fs : Firestore) (s s1 : Store) (data : Option Data)
    (context : Context) (now : ℕ) (rnd : ℕ → ℚ) (fuel : ℕ) (e : Thrown)
    (h : spinSlot fs s data context now rnd fuel = some (.error e, s1)) :
    s1 = s ∧
    ((data = none ∨
        (∃ d, data = some d ∧ (d.codigo.isString = false ∨ d.codigo = .string "")) ∨
        ∃ codigo, data = some ⟨.string codigo⟩ ∧ fs.docOk codigo = false) ∨
      ∃ codigo, data = some ⟨.string codigo⟩ ∧
        (s.codigos codigo = none ∨ (∃ d, s.codigos codigo = some d ∧ d.usado = true) ∨
          s.config = none ∨
          ∃ config, s.config = some config ∧
            (config.premio_nombre = JsVal.undefined ∨ elegir simbolos (rnd 1) = none))) := by
  refine ⟨spinSlot_error h, ?_⟩
  cases data with
  | none => left; left; rfl
  | some d =>
    obtain ⟨v⟩ := d
    cases v with
    | string codigo =>
      by_cases hne : codigo = ""
      · left; right; left
        exact ⟨⟨.string codigo⟩, rfl, Or.inr (by rw [hne])⟩
      · by_cases hdoc : fs.docOk codigo = true
        · right
          refine ⟨codigo, rfl, ?_⟩
          rw [spinSlot_string fs s codigo _ _ _ _ hne hdoc] at h
          cases htx : spinSlotTx s codigo context now rnd fuel with
          | none => simp [htx] at h
          | some x =>
            cases x with
            | error e1 => exact spinSlotTx_error htx
            | ok p => simp [htx] at h
        · left; right; right
          exact ⟨codigo, rfl, by simpa using hdoc⟩
    | undefined => left; right; left; exact ⟨_, rfl, Or.inl rfl⟩
    | null => left; right; left; exact ⟨_, rfl, Or.inl rfl⟩
    | bool b => left; right; left; exact ⟨_, rfl, Or.inl rfl⟩
    | number q => left; right; left; exact ⟨_, rfl, Or.inl rfl⟩
    | nan => left; right; left; exact ⟨_, rfl, Or.inl rfl⟩
    | object => left; right; left; exact ⟨_, rfl, Or.inl rfl⟩

/-- Witness of C7: the call for the used code `B` fails. -/
theorem spinSlot_failure_atomic_witness :
    spinSlot fsEx (storeWith (some lastPrize)) (some ⟨.string "B"⟩) ⟨none⟩ 11 zeros 3 =
        some (.error (.https ⟨.internal, "Código ya usado"⟩), storeWith (some lastPrize)) ∧
    storeWith (some lastPrize) = storeWith (some lastPrize) :=
  ⟨spinSlot_usedB, (spinSlot_failure_atomic _ _ _ _ _ _ _ _ _ spinSlot_usedB).1⟩

/-! ## C8: `usado` is never reset -/

/-- C8: if, after the calls `cs`, the record of a code has `usado = true`, then
after any further calls `ds` (any payloads, callers, times, draws and fuel) the
record of that code is the same record: `usado` is still `true`, and `ganador`,
`fecha_uso` and `userId` are what they were when the record was marked used. -/
theorem used_never_reset (fs : Firestore) (s : Store) (cs ds : List Call) (codigo : String)
    (doc : CodigoDoc)
    (h : (run fs s cs).codigos codigo = some doc) (hu : doc.usado = true) :
    (run fs s (cs ++ ds)).codigos codigo = some doc := by
  rw [run_append]
  exact run_used fs (run fs s cs) ds codigo doc h hu

/-- Witness of C8: `A` is redeemed, then `A` again and `B`. -/
theorem used_never_reset_witness :
    ((run fsEx (storeWith (some lastPrize)) [callA]).codigos "A" =
        some ⟨true, some true, some 7, none⟩ ∧
      (⟨true, some true, some 7, none⟩ : CodigoDoc).usado = true) ∧
    (run fsEx (storeWith (some lastPrize)) ([callA] ++ [callA2, callB])).codigos "A" =
      some ⟨true, some true, some 7, none⟩ :=
  ⟨⟨by simp [run_callA, storeWonA], rfl⟩,
    used_never_reset fsEx (storeWith (some lastPrize)) [callA] [callA2, callB] "A"
      ⟨true, some true, some 7, none⟩ (by simp [run_callA, storeWonA]) rfl⟩

/-! ## C9: the errors of `spinSlot` -/

/-- C9 (counterexample): the code `A` exists unused and `config/actual` is
absent; the transaction throws an error of code `internal`, and `internal` is
the code that the caller gets. -/
theorem spinSlot_config_absent_internal :
    (storeWith none).codigos "A" = some ⟨false, none, none, none⟩ ∧
    (storeWith none).config = none ∧
    spinSlotTx (storeWith none) "A" ⟨none⟩ 7 zeros 3 =
      some (.error (.https ⟨.internal, "Configuración no disponible"⟩)) ∧
    spinSlot fsEx (storeWith none) (some ⟨.string "A"⟩) ⟨none⟩ 7 zeros 3 =
      some (.error (.https ⟨.internal, "Configuración no disponible"⟩), storeWith none) := by
  refine ⟨by simp [storeWith], rfl, ?_, ?_⟩
  · simp [spinSlotTx, storeWith]
  · simp [spinSlot, spinSlotTx, storeWith, fsEx, JsVal.truthy, JsVal.isString,
      messageOrDefault]

/-- C9 (amended): the transaction of `spinSlot` applies its checks in this
order, whatever the caller, time, draws and fuel.  An absent code record:
it throws `not-found`.  A record with `usado = true`: it throws
`already-exists`.  An unused record and no `config/actual`: it throws an error
of code `internal` with the message `Configuración no disponible`, and for a
non-empty code (an id that the library accepts) that is the error the caller
gets. -/
theorem spinSlotTx_error_classes (fs : Firestore) (s : Store) (codigo : String)
    (context : Context) (now : ℕ) (rnd : ℕ → ℚ) (fuel : ℕ) :
    (s.codigos codigo = none →
      spinSlotTx s codigo context now rnd fuel =
        some (.error (.https ⟨.notFound, "Código inválido"⟩))) ∧
    (∀ d, s.codigos codigo = some d → d.usado = true →
      spinSlotTx s codigo context now rnd fuel =
        some (.error (.https ⟨.alreadyExists, "Código ya usado"⟩))) ∧
    (∀ d, s.codigos codigo = some d → d.usado = false → s.config = none →
      spinSlotTx s codigo context now rnd fuel =
          some (.error (.https ⟨.internal, "Configuración no disponible"⟩)) ∧
        (codigo ≠ "" → fs.docOk codigo = true →
          spinSlot fs s (some ⟨.string codigo⟩) context now rnd fuel =
            some (.error (.https ⟨.internal, "Configuración no disponible"⟩), s))) := by
  refine ⟨?_, ?_, ?_⟩
  · intro hc
    simp [spinSlotTx, hc]
  · intro d hc hu
    simp [spinSlotTx, hc, hu]
  · intro d hc hu hcfg
    have htx : spinSlotTx s codigo context now rnd fuel =
        some (.error (.https ⟨.internal, "Configuración no disponible"⟩)) := by
      simp [spinSlotTx, hc, hu, hcfg]
    refine ⟨htx, ?_⟩
    intro hne hdoc
    rw [spinSlot_string fs s codigo _ _ _ _ hne hdoc, htx]
    simp [messageOrDefault]

/-- Witness of C9 (amended): the absent code `Z`, the used code `B`, and the
unused code `A` without `config/actual`. -/
theorem spinSlotTx_error_classes_witness :
    ((storeWith none).codigos "Z" = none ∧
      spinSlotTx (storeWith none) "Z" ⟨none⟩ 7 zeros 3 =
        some (.error (.https ⟨.notFound, "Código inválido"⟩))) ∧
    ((storeWith none).codigos "B" = some ⟨true, some false, some 0, none⟩ ∧
      spinSlotTx (storeWith none) "B" ⟨none⟩ 7 zeros 3 =
        some (.error (.https ⟨.alreadyExists, "Código ya usado"⟩))) ∧
    (((storeWith none).codigos "A" = some ⟨false, none, none, none⟩ ∧
        (storeWith none).config = none ∧ "A" ≠ "" ∧ fsEx.docOk "A" = true) ∧
      spinSlot fsEx (storeWith none) (some ⟨.string "A"⟩) ⟨none⟩ 7 zeros 3 =
        some (.error (.https ⟨.internal, "Configuración no disponible"⟩), storeWith none)) :=
  ⟨⟨by simp [storeWith],
      (spinSlotTx_error_classes fsEx (storeWith none) "Z" ⟨none⟩ 7 zeros 3).1
        (by simp [storeWith])⟩,
    ⟨by simp [storeWith],
      (spinSlotTx_error_classes fsEx (storeWith none) "B" ⟨none⟩ 7 zeros 3).2.1
        ⟨true, some false, some 0, none⟩ (by simp [storeWith]) rfl⟩,
    ⟨⟨by simp [storeWith], rfl, by decide, by simp [fsEx]⟩,
      ((spinSlotTx_error_classes fsEx (storeWith none) "A" ⟨none⟩ 7 zeros 3).2.2
        ⟨false, none, none, none⟩ (by simp [storeWith]) rfl rfl).2 (by decide)
          (by simp [fsEx])⟩⟩

/-! ## C10: validation of the payload -/

/-- For a payload that is an object, `spinSlot` fails with `invalid-argument`
exactly when `codigo` is not a string (missing included) or is the empty
string; it then returns that error from every store alike and leaves the store
as it was.  For a non-empty string it does not fail with `invalid-argument`. -/
theorem spinSlot_invalid_argument_object (fs : Firestore) (s : Store) (data : Data)
    (context : Context) (now : ℕ) (rnd : ℕ → ℚ) (fuel : ℕ) :
    ((∃ e s1, spinSlot fs s (some data) context now rnd fuel = some (.error (.https e), s1) ∧
        e.code = .invalidArgument) ↔
      (data.codigo.isString = false ∨ data.codigo = .string "")) ∧
    ((data.codigo.isString = false ∨ data.codigo = .string "") →
      ∀ s0 : Store, spinSlot fs s0 (some data) context now rnd fuel =
        some (.error (.https ⟨.invalidArgument, "Código inválido"⟩), s0)) := by
  have key : (data.codigo.isString = false ∨ data.codigo = .string "") →
      ∀ s0 : Store, spinSlot fs s0 (some data) context now rnd fuel =
        some (.error (.https ⟨.invalidArgument, "Código inválido"⟩), s0) := by
    intro hbad s0
    rcases hbad with hns | hemp
    · simp [spinSlot, hns]
    · simp [spinSlot, hemp, JsVal.truthy]
  refine ⟨⟨?_, fun hbad => ⟨_, s, key hbad s, rfl⟩⟩, key⟩
  rintro ⟨e, s1, h, hcode⟩
  obtain ⟨v⟩ := data
  cases v with
  | string codigo =>
    by_cases hne : codigo = ""
    · right; rw [hne]
    · exfalso
      by_cases hdoc : fs.docOk codigo = true
      · rw [spinSlot_string fs s codigo _ _ _ _ hne hdoc] at h
        cases htx : spinSlotTx s codigo context now rnd fuel with
        | none => simp [htx] at h
        | some x =>
          cases x with
          | error e1 =>
            cases e1 with
            | https e2 =>
              simp [htx] at h
              rw [← h.1] at hcode
              cases hcode
            | undefinedField =>
              simp [htx] at h
              rw [← h.1] at hcode
              cases hcode
          | ok p => simp [htx] at h
      · simp [spinSlot, JsVal.truthy, JsVal.isString, hne, hdoc] at h
  | undefined => left; rfl
  | null => left; rfl
  | bool b => left; rfl
  | number q => left; rfl
  | nan => left; rfl
  | object => left; rfl

/-- C10 (the code at the failing input): for a payload that is `null` (a call
without data) the supplied code is missing, and `spinSlot` does not fail with
`invalid-argument`: `const { codigo } = data` throws a `TypeError` before the
validation is reached.  The store is left as it was. -/
theorem spinSlot_null_payload :
    spinSlot fsEx (storeWith (some lastPrize)) none ⟨none⟩ 7 zeros 0 =
      some (.error .typeError, storeWith (some lastPrize)) ∧
    Thrown.typeError ≠ Thrown.https ⟨.invalidArgument, "Código inválido"⟩ := by
  refine ⟨rfl, ?_⟩
  intro h
  cases h

/-! ## The symbol picked for a draw -/

/-- For a draw that is a double in `[0, 1)` the index `Math.floor(u * 5)` lies
in `0..4`, so the symbol picked is one of the five. -/
theorem elegir_simbolos_mem (u : ℚ) (hd : toDouble u = u) (h0 : 0 ≤ u) (h1 : u < 1) :
    0 ≤ ⌊toDouble (u * 5)⌋ ∧ ⌊toDouble (u * 5)⌋ ≤ 4 ∧
      ∃ a, a ∈ simbolos ∧ elegir simbolos u = some a := by
  have hlo : 0 ≤ ⌊toDouble (u * 5)⌋ :=
    Int.floor_nonneg.mpr (toDouble_nonneg _ (by positivity))
  have hhi : ⌊toDouble (u * 5)⌋ < 5 := by
    rw [Int.floor_lt]
    push_cast
    exact toDouble_mul_five_lt u hd h0 h1
  refine ⟨hlo, by omega, ?_⟩
  have hlen : ((simbolos.length : ℕ) : ℚ) = 5 := by simp [simbolos]
  unfold elegir
  rw [hlen]
  generalize ⌊toDouble (u * 5)⌋ = k at hlo hhi
  interval_cases k <;> simp [jsIndex, simbolos]

/-! ## C11: the rule of the decision -/

/-- C11 (counterexample): the code `A` exists unused, `premios_restantes` is
the integer `1`, `probabilidad` is `1` and the first draw is `0`, so
`remaining > 0` and `u < p`; but `config/actual` has no `premio_nombre`, the
write of the result is refused for the `undefined` field, and `spinSlot` fails
with `internal` and does not return `gana = true`. -/
theorem spinSlot_no_label_fails :
    UnitDraws zeros ∧
    (storeWith (some noLabel)).codigos "A" = some ⟨false, none, none, none⟩ ∧
    (storeWith (some noLabel)).config = some noLabel ∧
    noLabel.premios_restantes = some ((1 : ℤ) : ℚ) ∧ noLabel.probabilidad = some 1 ∧
    ((0 : ℤ) < 1 ∧ zeros 0 < 1) ∧
    spinSlot fsEx (storeWith (some noLabel)) (some ⟨.string "A"⟩) ⟨none⟩ 7 zeros 0 =
      some (.error (.https ⟨.internal, "Cannot use undefined as a Firestore value"⟩),
        storeWith (some noLabel)) := by
  refine ⟨unitDraws_zeros, by simp [storeWith], rfl, by simp [noLabel], rfl,
    ⟨by norm_num, by simp [zeros]⟩, ?_⟩
  simp [spinSlot, spinSlotTx, storeWith, noLabel, zeros, fsEx, JsVal.truthy, JsVal.isString,
    orDefault, messageOrDefault]

/-- C11 (amended): for an existing unused code, a `config/actual` that has a
`premio_nombre`, `premios_restantes` an integer `n` and `probabilidad` a number
`p > 0` (in particular `0 < p ≤ 1`), and draws that are doubles in `[0, 1)`,
`spinSlot` returns `gana = true` exactly when `n > 0` and the first draw
`u = rnd 0` has `u < p`; when it returns without that, it returns
`gana = false`; and it returns no error. -/
theorem spinSlot_decider_rule (fs : Firestore) (s : Store) (codigo : String)
    (codigoData : CodigoDoc) (config : ConfigDoc) (context : Context) (now : ℕ)
    (rnd : ℕ → ℚ) (fuel : ℕ) (n : ℤ) (p : ℚ)
    (hne : codigo ≠ "") (hdoc : fs.docOk codigo = true)
    (hc : s.codigos codigo = some codigoData)
    (hu : codigoData.usado = false) (hcfg : s.config = some config)
    (hlabel : config.premio_nombre ≠ JsVal.undefined)
    (hn : config.premios_restantes = some (n : ℚ)) (hp : config.probabilidad = some p)
    (hp0 : 0 < p) (hrnd : UnitDraws rnd) :
    ((∃ r s1, spinSlot fs s (some ⟨.string codigo⟩) context now rnd fuel = some (.ok r, s1) ∧
        r.gana = true) ↔ (0 < n ∧ rnd 0 < p)) ∧
    (∀ r s1, spinSlot fs s (some ⟨.string codigo⟩) context now rnd fuel = some (.ok r, s1) →
      (r.gana = true ↔ (0 < n ∧ rnd 0 < p))) ∧
    (∀ e s1, spinSlot fs s (some ⟨.string codigo⟩) context now rnd fuel ≠
      some (.error e, s1)) := by
  have hpne : p ≠ 0 := ne_of_gt hp0
  have horp : orDefault (some p) defaultProbabilidad = p := by simp [orDefault, hpne]
  have horn := orDefault_intCast n
  obtain ⟨-, -, a, -, hea⟩ := elegir_simbolos_mem (rnd 1) (hrnd 1).1 (hrnd 1).2.1 (hrnd 1).2.2
  have hrule : ∀ r s1,
      spinSlot fs s (some ⟨.string codigo⟩) context now rnd fuel = some (.ok r, s1) →
      (r.gana = true ↔ (0 < n ∧ rnd 0 < p)) := by
    intro r s1 h
    obtain ⟨codigo1, hd, -, -, htx⟩ := spinSlot_ok h
    cases hd
    obtain ⟨codigoData1, config1, -, -, hcfg1, hg, -⟩ := spinSlotTx_ok htx
    rw [hcfg] at hcfg1
    cases hcfg1
    rw [hg, hn, hp, horp, horn]
    simp
  refine ⟨⟨?_, ?_⟩, hrule, ?_⟩
  · rintro ⟨r, s1, h, hg⟩
    exact (hrule r s1 h).1 hg
  · rintro ⟨hn0, hup⟩
    have hnq : (0 : ℚ) < (n : ℚ) := by exact_mod_cast hn0
    refine ⟨⟨true, some a, [some a, some a, some a], config.premio_nombre,
        toDouble ((n : ℚ) - 1)⟩,
      { codigos := Function.update s.codigos codigo
          (some ⟨true, some true, some now, uidOrNull context⟩),
        config := some { config with
          premios_restantes := some (toDouble ((n : ℚ) - 1)), ultimo_ganador := some now },
        resultados := s.resultados ++
          [⟨codigo, true, some a, config.premio_nombre, now, uidOrNull context⟩] }, ?_, rfl⟩
    rw [spinSlot_string fs s codigo _ _ _ _ hne hdoc]
    simp [spinSlotTx, hc, hu, hcfg, hn, hp, horp, horn, hnq, hup, hea, hlabel]
  · intro e s1 h
    rw [spinSlot_string fs s codigo _ _ _ _ hne hdoc] at h
    cases htx : spinSlotTx s codigo context now rnd fuel with
    | none => simp [htx] at h
    | some x =>
      cases x with
      | error e1 =>
        rcases spinSlotTx_error htx with h1 | ⟨d, h1, h2⟩ | h1 | ⟨config1, h1, h2⟩
        · rw [hc] at h1; cases h1
        · rw [hc] at h1; cases h1; rw [hu] at h2; cases h2
        · rw [hcfg] at h1; cases h1
        · rw [hcfg] at h1
          cases h1
          rcases h2 with h2 | h2
          · exact hlabel h2
          · rw [hea] at h2
            cases h2
      | ok q => simp [htx] at h

/-- Witness of C11 (amended): the code `A`, one prize left,
`probabilidad = 1`. -/
theorem spinSlot_decider_rule_witness :
    ("A" ≠ "" ∧ fsEx.docOk "A" = true ∧
      (storeWith (some lastPrize)).codigos "A" = some ⟨false, none, none, none⟩ ∧
      (⟨false, none, none, none⟩ : CodigoDoc).usado = false ∧
      (storeWith (some lastPrize)).config = some lastPrize ∧
      lastPrize.premio_nombre ≠ JsVal.undefined ∧
      lastPrize.premios_restantes = some ((1 : ℤ) : ℚ) ∧
      lastPrize.probabilidad = some 1 ∧ (0 : ℚ) < 1 ∧ UnitDraws zeros) ∧
    (((∃ r s1, spinSlot fsEx (storeWith (some lastPrize)) (some ⟨.string "A"⟩) ⟨none⟩ 7 zeros 0 =
          some (.ok r, s1) ∧ r.gana = true) ↔ ((0 : ℤ) < 1 ∧ zeros 0 < 1)) ∧
      (∀ r s1, spinSlot fsEx (storeWith (some lastPrize)) (some ⟨.string "A"⟩) ⟨none⟩ 7 zeros 0 =
          some (.ok r, s1) → (r.gana = true ↔ ((0 : ℤ) < 1 ∧ zeros 0 < 1))) ∧
      (∀ e s1, spinSlot fsEx (storeWith (some lastPrize)) (some ⟨.string "A"⟩) ⟨none⟩ 7 zeros 0 ≠
        some (.error e, s1))) :=
  ⟨⟨by decide, by simp [fsEx], by simp [storeWith], rfl, rfl, by simp [lastPrize],
      by simp [lastPrize], rfl, by norm_num, unitDraws_zeros⟩,
    spinSlot_decider_rule fsEx (storeWith (some lastPrize)) "A" ⟨false, none, none, none⟩
      lastPrize ⟨none⟩ 7 zeros 0 1 1 (by decide) (by simp [fsEx]) (by simp [storeWith]) rfl rfl
      (by simp [lastPrize]) (by simp [lastPrize]) rfl (by norm_num) unitDraws_zeros⟩

/-! ## The loop of `generarSimbolosPerdedor`, round by round -/

theorem generarSimbolosPerdedor_succ (sims : List String) (rnd : ℕ → ℚ) (i fuel : ℕ) :
    generarSimbolosPerdedor sims rnd i (fuel + 1) =
      if todosIguales sims rnd i 0 = true then generarSimbolosPerdedor sims rnd (i + 3) fuel
      else some (ronda sims rnd i 0) := by
  simp [generarSimbolosPerdedor, todosIguales, ronda]

theorem todosIguales_shift (sims : List String) (rnd : ℕ → ℚ) (i k : ℕ) :
    todosIguales sims rnd (i + 3) k = todosIguales sims rnd i (k + 1) := by
  have e : i + 3 + 3 * k = i + 3 * (k + 1) := by ring
  simp only [todosIguales, e]

theorem ronda_shift (sims : List String) (rnd : ℕ → ℚ) (i k : ℕ) :
    ronda sims rnd (i + 3) k = ronda sims rnd i (k + 1) := by
  have e : i + 3 + 3 * k = i + 3 * (k + 1) := by ring
  simp only [ronda, e]

/-- While every round so far picked three equal symbols, the loop goes on. -/
theorem generarSimbolosPerdedor_none (sims : List String) (rnd : ℕ → ℚ) (fuel i : ℕ)
    (h : ∀ j < fuel, todosIguales sims rnd i j = true) :
    generarSimbolosPerdedor sims rnd i fuel = none := by
  induction fuel generalizing i with
  | zero => rfl
  | succ fuel ih =>
    rw [generarSimbolosPerdedor_succ, if_pos (h 0 (Nat.succ_pos fuel))]
    apply ih
    intro j hj
    rw [todosIguales_shift]
    exact h (j + 1) (Nat.succ_lt_succ hj)

/-- The loop ends at the first round whose three symbols are not all equal. -/
theorem generarSimbolosPerdedor_first (sims : List String) (rnd : ℕ → ℚ) (k i fuel : ℕ)
    (hbefore : ∀ j < k, todosIguales sims rnd i j = true)
    (hk : todosIguales sims rnd i k = false) (hf : k < fuel) :
    generarSimbolosPerdedor sims rnd i fuel = some (ronda sims rnd i k) := by
  induction k generalizing i fuel with
  | zero =>
    obtain ⟨f, rfl⟩ := Nat.exists_eq_succ_of_ne_zero (Nat.pos_iff_ne_zero.mp hf)
    rw [generarSimbolosPerdedor_succ, hk]
    simp
  | succ k ih =>
    obtain ⟨f, rfl⟩ := Nat.exists_eq_succ_of_ne_zero (Nat.not_eq_zero_of_lt hf)
    rw [generarSimbolosPerdedor_succ, if_pos (hbefore 0 (Nat.succ_pos k)), ← ronda_shift]
    apply ih
    · intro j hj
      rw [todosIguales_shift]
      exact hbefore (j + 1) (Nat.succ_lt_succ hj)
    · rw [todosIguales_shift]
      exact hk
    · exact Nat.lt_of_succ_lt_succ hf

/-- What the loop returns is the first round whose symbols are not all equal. -/
theorem generarSimbolosPerdedor_some (sims : List String) (rnd : ℕ → ℚ) (fuel i : ℕ)
    (m : List (Option String)) (h : generarSimbolosPerdedor sims rnd i fuel = some m) :
    ∃ k, k < fuel ∧ (∀ j < k, todosIguales sims rnd i j = true) ∧
      todosIguales sims rnd i k = false ∧ m = ronda sims rnd i k := by
  induction fuel generalizing i with
  | zero => simp [generarSimbolosPerdedor] at h
  | succ fuel ih =>
    rw [generarSimbolosPerdedor_succ] at h
    by_cases h0 : todosIguales sims rnd i 0 = true
    · rw [if_pos h0] at h
      obtain ⟨k, hk, hb, hn, hm⟩ := ih (i + 3) h
      refine ⟨k + 1, Nat.succ_lt_succ hk, ?_, ?_, ?_⟩
      · intro j hj
        cases j with
        | zero => exact h0
        | succ j =>
          rw [← todosIguales_shift]
          exact hb j (Nat.lt_of_succ_lt_succ hj)
      · rw [← todosIguales_shift]
        exact hn
      · rw [← ronda_shift]
        exact hm
    · rw [if_neg h0] at h
      refine ⟨0, Nat.succ_pos fuel, ?_, by simpa using h0, ?_⟩
      · intro j hj
        exact absurd hj (Nat.not_lt_zero j)
      · simpa using h.symm

/-! ## C12, C13: the symbols shown -/

theorem generarSimbolosPerdedor_mixed :
    generarSimbolosPerdedor simbolos mixed 0 2 = some [some "👑", some "💎", some "💎"] := by
  have h0 : mixed 0 = 1 / 2 := by simp [mixed]
  have h1 : mixed 1 = 0 := by simp [mixed]
  have h2 : mixed 2 = 0 := by simp [mixed]
  have ht : todosIguales simbolos mixed 0 0 = false := by
    simp only [todosIguales, Nat.mul_zero, Nat.add_zero, Nat.zero_add, h0, h1, h2,
      elegir_simbolos_half, elegir_simbolos_zero]
    decide
  rw [generarSimbolosPerdedor_succ, ht]
  simp only [ronda, Nat.mul_zero, Nat.add_zero, Nat.zero_add, h0, h1, h2,
    elegir_simbolos_half, elegir_simbolos_zero]
  simp

theorem spinSlot_storeLostA :
    spinSlot fsEx (storeWith (some soldOut)) (some ⟨.string "A"⟩) ⟨none⟩ 7 mixed 2 =
      some (.ok lostA, storeLostA) := by
  simp [spinSlot, spinSlotTx, storeWith, soldOut, lostA, storeLostA, fsEx, JsVal.truthy,
    JsVal.isString, orDefault, uidOrNull, generarSimbolosPerdedor_mixed]

/-- C12: when `spinSlot` returns `gana = false` (draws in `[0, 1)`), the list
`simbolosMostrados` has exactly three entries, each one of the five symbols, and
the three are not all the same (two equal and one different may occur). -/
theorem spinSlot_loss_display (fs : Firestore) (s s1 : Store) (data : Option Data)
    (context : Context) (now : ℕ) (rnd : ℕ → ℚ) (fuel : ℕ) (r : Resultado)
    (h : spinSlot fs s data context now rnd fuel = some (.ok r, s1))
    (hg : r.gana = false) (hrnd : UnitDraws rnd) :
    ∃ a b c, r.simbolosMostrados = [some a, some b, some c] ∧
      a ∈ simbolos ∧ b ∈ simbolos ∧ c ∈ simbolos ∧ ¬ (a = b ∧ b = c) := by
  obtain ⟨codigo, -, -, -, htx⟩ := spinSlot_ok h
  obtain ⟨config, -, -, hloss⟩ := spinSlotTx_ok_mostrados htx
  obtain ⟨k, -, -, hk, hm⟩ := generarSimbolosPerdedor_some _ _ _ _ _ (hloss hg)
  generalize (if orDefault config.premios_restantes 0 > 0 then 1 else 0) = i at hk hm
  obtain ⟨-, -, a, ha, hea⟩ :=
    elegir_simbolos_mem (rnd (i + 3 * k)) (hrnd _).1 (hrnd _).2.1 (hrnd _).2.2
  obtain ⟨-, -, b, hb, heb⟩ :=
    elegir_simbolos_mem (rnd (i + 3 * k + 1)) (hrnd _).1 (hrnd _).2.1 (hrnd _).2.2
  obtain ⟨-, -, c, hc, hec⟩ :=
    elegir_simbolos_mem (rnd (i + 3 * k + 2)) (hrnd _).1 (hrnd _).2.1 (hrnd _).2.2
  refine ⟨a, b, c, ?_, ha, hb, hc, ?_⟩
  · rw [hm]
    simp only [ronda, hea, heb, hec]
  · simpa [todosIguales, hea, heb, hec] using hk

/-- Witness of C12: the losing redemption of `A` with no prize left. -/
theorem spinSlot_loss_display_witness :
    (spinSlot fsEx (storeWith (some soldOut)) (some ⟨.string "A"⟩) ⟨none⟩ 7 mixed 2 =
        some (.ok lostA, storeLostA) ∧ lostA.gana = false ∧ UnitDraws mixed) ∧
    ∃ a b c, lostA.simbolosMostrados = [some a, some b, some c] ∧
      a ∈ simbolos ∧ b ∈ simbolos ∧ c ∈ simbolos ∧ ¬ (a = b ∧ b = c) :=
  ⟨⟨spinSlot_storeLostA, rfl, unitDraws_mixed⟩,
    spinSlot_loss_display _ _ _ _ _ _ _ _ _ spinSlot_storeLostA rfl unitDraws_mixed⟩

/-- C13: when `spinSlot` returns `gana = true` (draws that are doubles in
`[0, 1)`), the index `Math.floor(draw * 5)` of the symbol draw, computed on the
product rounded to a double, lies in `0..4`; so `simbolo` is one of the five
symbols, namely `simbolos[Math.floor(draw * 5)]`, and `simbolosMostrados` is
three copies of `simbolo`. -/
theorem spinSlot_win_display (fs : Firestore) (s s1 : Store) (data : Option Data)
    (context : Context) (now : ℕ) (rnd : ℕ → ℚ) (fuel : ℕ) (r : Resultado)
    (h : spinSlot fs s data context now rnd fuel = some (.ok r, s1))
    (hg : r.gana = true) (hrnd : UnitDraws rnd) :
    0 ≤ ⌊toDouble (rnd 1 * 5)⌋ ∧ ⌊toDouble (rnd 1 * 5)⌋ ≤ 4 ∧
    ∃ a, a ∈ simbolos ∧ r.simbolo = some a ∧
      r.simbolo = jsIndex simbolos ⌊toDouble (rnd 1 * 5)⌋ ∧
      r.simbolosMostrados = [r.simbolo, r.simbolo, r.simbolo] := by
  obtain ⟨codigo, -, -, -, htx⟩ := spinSlot_ok h
  obtain ⟨config, -, hwin, -⟩ := spinSlotTx_ok_mostrados htx
  obtain ⟨codigoData, config1, -, -, -, -, -, -, -, hsim, -⟩ := spinSlotTx_ok htx
  rw [if_pos hg] at hsim
  obtain ⟨hlo, hhi, a, ha, hea⟩ :=
    elegir_simbolos_mem (rnd 1) (hrnd 1).1 (hrnd 1).2.1 (hrnd 1).2.2
  have hlen : ((simbolos.length : ℕ) : ℚ) = 5 := by simp [simbolos]
  refine ⟨hlo, hhi, a, ha, by rw [hsim, hea], ?_, hwin hg⟩
  rw [hsim]
  unfold elegir
  rw [hlen]

/-- Witness of C13: the winning redemption of `A`. -/
theorem spinSlot_win_display_witness :
    (spinSlot fsEx (storeWith (some lastPrize)) (some ⟨.string "A"⟩) ⟨none⟩ 7 zeros 0 =
        some (.ok wonA, storeWonA) ∧ wonA.gana = true ∧ UnitDraws zeros) ∧
    (0 ≤ ⌊toDouble (zeros 1 * 5)⌋ ∧ ⌊toDouble (zeros 1 * 5)⌋ ≤ 4 ∧
      ∃ a, a ∈ simbolos ∧ wonA.simbolo = some a ∧
        wonA.simbolo = jsIndex simbolos ⌊toDouble (zeros 1 * 5)⌋ ∧
        wonA.simbolosMostrados = [wonA.simbolo, wonA.simbolo, wonA.simbolo]) :=
  ⟨⟨spinSlot_storeWonA, rfl, unitDraws_zeros⟩,
    spinSlot_win_display _ _ _ _ _ _ _ _ _ spinSlot_storeWonA rfl unitDraws_zeros⟩

/-! ## C20: when `generarSimbolosPerdedor` returns -/

theorem todosIguales_mixed : todosIguales simbolos mixed 0 0 = false := by
  have h0 : mixed 0 = 1 / 2 := by simp [mixed]
  have h1 : mixed 1 = 0 := by simp [mixed]
  have h2 : mixed 2 = 0 := by simp [mixed]
  simp only [todosIguales, Nat.mul_zero, Nat.add_zero, Nat.zero_add, h0, h1, h2,
    elegir_simbolos_half, elegir_simbolos_zero]
  decide

/-- On the draws `0.6`, `0.5`, `0.5`, ... the first round picks the symbols of
index `3`, `2` and `2`, and the loop ends there. -/
theorem generarSimbolosPerdedor_sixTenths :
    generarSimbolosPerdedor simbolos sixTenths 0 1 = some [some "🍀", some "👑", some "👑"] := by
  have h0 : sixTenths 0 = 5404319552844595 / 2 ^ 53 := by simp [sixTenths]
  have h1 : sixTenths 1 = 1 / 2 := by simp [sixTenths]
  have h2 : sixTenths 2 = 1 / 2 := by simp [sixTenths]
  have ht : todosIguales simbolos sixTenths 0 0 = false := by
    simp only [todosIguales, Nat.mul_zero, Nat.add_zero, Nat.zero_add, h0, h1, h2,
      elegir_simbolos_half, elegir_simbolos_six_tenths]
    decide
  rw [generarSimbolosPerdedor_succ, ht]
  simp only [ronda, Nat.mul_zero, Nat.add_zero, Nat.zero_add, h0, h1, h2,
    elegir_simbolos_half, elegir_simbolos_six_tenths]
  simp

/-- C20: `generarSimbolosPerdedor` on the five symbols, reading the stream of
draws three per round (from position `i`), returns for some number of rounds
exactly when some round picks three symbols that are not all equal; if `k` is
the first such round it returns the three symbols of round `k` as soon as more
than `k` rounds are allowed, and nothing before.  On a constant stream it never
returns, whatever the number of rounds allowed. -/
theorem generarSimbolosPerdedor_returns_iff (rnd : ℕ → ℚ) (i : ℕ) :
    ((∃ fuel m, generarSimbolosPerdedor simbolos rnd i fuel = some m) ↔
      ∃ k, todosIguales simbolos rnd i k = false) ∧
    (∀ k, (∀ j < k, todosIguales simbolos rnd i j = true) →
      todosIguales simbolos rnd i k = false →
      ∀ fuel, generarSimbolosPerdedor simbolos rnd i fuel =
        if k < fuel then some (ronda simbolos rnd i k) else none) ∧
    (∀ (c : ℚ) (fuel : ℕ), generarSimbolosPerdedor simbolos (fun _ => c) i fuel = none) := by
  have hfirst : ∀ k, (∀ j < k, todosIguales simbolos rnd i j = true) →
      todosIguales simbolos rnd i k = false →
      ∀ fuel, generarSimbolosPerdedor simbolos rnd i fuel =
        if k < fuel then some (ronda simbolos rnd i k) else none := by
    intro k hb hk fuel
    by_cases hf : k < fuel
    · rw [if_pos hf]
      exact generarSimbolosPerdedor_first simbolos rnd k i fuel hb hk hf
    · rw [if_neg hf]
      apply generarSimbolosPerdedor_none
      intro j hj
      exact hb j (by omega)
  refine ⟨⟨?_, ?_⟩, hfirst, ?_⟩
  · rintro ⟨fuel, m, h⟩
    obtain ⟨k, -, -, hk, -⟩ := generarSimbolosPerdedor_some _ _ _ _ _ h
    exact ⟨k, hk⟩
  · intro hex
    have hb : ∀ j < Nat.find hex, todosIguales simbolos rnd i j = true := by
      intro j hj
      have := Nat.find_min hex hj
      simpa using this
    refine ⟨Nat.find hex + 1, ronda simbolos rnd i (Nat.find hex), ?_⟩
    rw [hfirst (Nat.find hex) hb (Nat.find_spec hex), if_pos (Nat.lt_succ_self _)]
  · intro c fuel
    apply generarSimbolosPerdedor_none
    intro j _
    simp [todosIguales]

/-- Witness of C20: on the stream `mixed` the first round is not all equal. -/
theorem generarSimbolosPerdedor_returns_iff_witness :
    ((∀ j < 0, todosIguales simbolos mixed 0 j = true) ∧
      todosIguales simbolos mixed 0 0 = false) ∧
    ∀ fuel, generarSimbolosPerdedor simbolos mixed 0 fuel =
      if 0 < fuel then some (ronda simbolos mixed 0 0) else none :=
  ⟨⟨fun j hj => absurd hj (Nat.not_lt_zero j), todosIguales_mixed⟩,
    (generarSimbolosPerdedor_returns_iff mixed 0).2.1 0
      (fun j hj => absurd hj (Nat.not_lt_zero j)) todosIguales_mixed⟩

/-! ## C14: one document of `resultados` per used code -/

/-- A call keeps the count of documents per code in step with `usado`. -/
theorem step_registros (fs : Firestore) (s : Store) (c : Call)
    (h : ∀ codigo, s.registros codigo = if s.usado codigo then 1 else 0) :
    ∀ codigo, (step fs s c).2.registros codigo =
      if (step fs s c).2.usado codigo then 1 else 0 := by
  rcases step_cases fs s c with h1 | ⟨e, h1⟩ | ⟨r, s1, hsp, h1⟩
  · rw [h1]; exact h
  · rw [h1]; exact h
  · rw [h1]
    obtain ⟨codigo1, -, -, -, htx⟩ := spinSlot_ok hsp
    obtain ⟨codigoData, config, hc, hnu, -, -, hcod, -, hres, -⟩ := spinSlotTx_ok htx
    intro codigo
    have hold := h codigo
    by_cases he : codigo = codigo1
    · subst he
      have hu0 : s.usado codigo = false := by simp [Store.usado, hc, hnu]
      rw [hu0] at hold
      simp only [Store.registros] at hold
      simp [Store.registros, Store.usado, hres, hcod, List.countP_append, hold]
    · have hne : codigo1 ≠ codigo := fun h2 => he h2.symm
      have hu1 : (Store.usado s1 codigo) = s.usado codigo := by
        simp [Store.usado, hcod, Function.update_noteq he]
      simp only [Store.registros] at hold
      simp [Store.registros, hu1, hres, List.countP_append, hold, hne]

theorem run_registros (fs : Firestore) (s : Store) (cs : List Call)
    (h : ∀ codigo, s.registros codigo = if s.usado codigo then 1 else 0) :
    ∀ codigo, (run fs s cs).registros codigo =
      if (run fs s cs).usado codigo then 1 else 0 := by
  induction cs generalizing s with
  | nil => exact h
  | cons c cs ih => exact ih (step fs s c).2 (step_registros fs s c h)

theorem step_resultados (fs : Firestore) (s : Store) (c : Call) :
    ∃ extra, (step fs s c).2.resultados = s.resultados ++ extra := by
  rcases step_cases fs s c with h1 | ⟨e, h1⟩ | ⟨r, s1, hsp, h1⟩
  · rw [h1]; exact ⟨[], by simp⟩
  · rw [h1]; exact ⟨[], by simp⟩
  · rw [h1]
    obtain ⟨codigo1, -, -, -, htx⟩ := spinSlot_ok hsp
    obtain ⟨codigoData, config, -, -, -, -, -, -, hres, -⟩ := spinSlotTx_ok htx
    exact ⟨_, hres⟩

theorem run_resultados (fs : Firestore) (s : Store) (cs : List Call) :
    ∃ extra, (run fs s cs).resultados = s.resultados ++ extra := by
  induction cs generalizing s with
  | nil => exact ⟨[], by simp [run]⟩
  | cons c cs ih =>
    obtain ⟨e1, h1⟩ := step_resultados fs s c
    obtain ⟨e2, h2⟩ := ih (step fs s c).2
    exact ⟨e1 ++ e2, by simp [run, h2, h1]⟩

theorem storeTwo_unused (codigo : String) : storeTwo.usado codigo = false := by
  simp only [Store.usado, storeTwo]
  split_ifs <;> rfl

/-- C14: from a store with no document in `resultados` and no used code, after
any sequence of calls `resultados` holds exactly one document for each code whose
record is now used and none for any other code.  From any store: a failed call
leaves `resultados` as it was; a successful call appends exactly one document,
whose `codigo` and `gano` are the code redeemed and the decision returned; and
after any sequence of calls the documents that were there are still there, in
place and unchanged, before the new ones. -/
theorem ledger_one_record_per_used_code (fs : Firestore) (s : Store) (cs : List Call)
    (h0 : s.resultados = []) (hun : ∀ codigo, s.usado codigo = false) :
    (∀ codigo, (run fs s cs).registros codigo =
      if (run fs s cs).usado codigo then 1 else 0) ∧
    (∀ (t t1 : Store) (data : Option Data) (context : Context) (now : ℕ) (rnd : ℕ → ℚ)
      (fuel : ℕ) (e : Thrown), spinSlot fs t data context now rnd fuel = some (.error e, t1) →
        t1.resultados = t.resultados) ∧
    (∀ (t t1 : Store) (data : Option Data) (context : Context) (now : ℕ) (rnd : ℕ → ℚ)
      (fuel : ℕ) (r : Resultado), spinSlot fs t data context now rnd fuel = some (.ok r, t1) →
        ∃ codigo d, data = some ⟨.string codigo⟩ ∧ t1.resultados = t.resultados ++ [d] ∧
          d.codigo = codigo ∧ d.gano = r.gana) ∧
    (∀ (t : Store) (ds : List Call),
      ∃ extra, (run fs t ds).resultados = t.resultados ++ extra) := by
  refine ⟨?_, ?_, ?_, run_resultados fs⟩
  · apply run_registros
    intro codigo
    simp [Store.registros, h0, hun codigo]
  · intro t t1 data context now rnd fuel e h
    rw [spinSlot_error h]
  · intro t t1 data context now rnd fuel r h
    obtain ⟨codigo, hd, -, -, htx⟩ := spinSlot_ok h
    obtain ⟨codigoData, config, -, -, -, -, -, -, hres, -⟩ := spinSlotTx_ok htx
    exact ⟨codigo, _, hd, hres, rfl, rfl⟩

/-- Witness of C14: `A` is redeemed twice and `C` once from `storeTwo`. -/
theorem ledger_one_record_per_used_code_witness :
    (storeTwo.resultados = [] ∧ ∀ codigo, storeTwo.usado codigo = false) ∧
    ∀ codigo, (run fsEx storeTwo [callA, callA2, callC]).registros codigo =
      if (run fsEx storeTwo [callA, callA2, callC]).usado codigo then 1 else 0 :=
  ⟨⟨rfl, storeTwo_unused⟩,
    (ledger_one_record_per_used_code fsEx storeTwo [callA, callA2, callC] rfl
      storeTwo_unused).1⟩

/-! ## C15: `getConfig` -/

/-- The body of `getConfig`, taken by itself, returns `{}` without a
configuration and otherwise the stored `premio_nombre` and `premios_restantes`;
it does not depend on `probabilidad` and leaves the store as it was. -/
theorem getConfigBody_public (s : Store) :
    (getConfigBody s).2 = s ∧
    (s.config = none → (getConfigBody s).1 = .vacia) ∧
    (∀ config, s.config = some config →
      (getConfigBody s).1 = .campos config.premio_nombre config.premios_restantes) ∧
    (∀ (t : Store) (c1 c2 : ConfigDoc), s.config = some c1 → t.config = some c2 →
      c1.premio_nombre = c2.premio_nombre → c1.premios_restantes = c2.premios_restantes →
      (getConfigBody s).1 = (getConfigBody t).1) := by
  refine ⟨?_, ?_, ?_, ?_⟩
  · unfold getConfigBody
    split <;> rfl
  · intro h
    simp [getConfigBody, h]
  · intro config h
    simp [getConfigBody, h]
  · intro t c1 c2 h1 h2 hp hr
    simp [getConfigBody, h1, h2, hp, hr]

/-- C15 (the code at the failing input): the handler of `getConfig` declares
`const data` in its body although `data` is its first parameter; the handler of
`spinSlot` has no such clash.  So `getConfig` is refused with a `SyntaxError`
and returns nothing, with a configuration stored or without one. -/
theorem getConfig_syntax_error :
    getConfigNames.clash = true ∧ spinSlotNames.clash = false ∧
    getConfig (storeWith (some lastPrize)) =
      .error "SyntaxError: Identifier data has already been declared" ∧
    getConfig (storeWith none) =
      .error "SyntaxError: Identifier data has already been declared" := by
  refine ⟨by decide, by decide, ?_, ?_⟩
  · simp [getConfig, getConfigNames, BoundNames.clash]
  · simp [getConfig, getConfigNames, BoundNames.clash]

/-! ## C16: what a successful call leaves alone -/

/-- C16: a successful `spinSlot` for a code leaves every other code record as
it was; of `config/actual` it keeps `probabilidad` and `premio_nombre` (it can
change only `premios_restantes` and `ultimo_ganador`), and on `gana = false` it
keeps the whole document; and it keeps every document of `resultados`, adding
one after them. -/
theorem spinSlot_frame (fs : Firestore) (s s1 : Store) (data : Option Data)
    (context : Context) (now : ℕ) (rnd : ℕ → ℚ) (fuel : ℕ) (r : Resultado)
    (h : spinSlot fs s data context now rnd fuel = some (.ok r, s1)) :
    ∃ codigo, data = some ⟨.string codigo⟩ ∧
      (∀ c, c ≠ codigo → s1.codigos c = s.codigos c) ∧
      (∃ config config1, s.config = some config ∧ s1.config = some config1 ∧
        config1.probabilidad = config.probabilidad ∧
        config1.premio_nombre = config.premio_nombre ∧
        (r.gana = false → config1 = config)) ∧
      ∃ d, s1.resultados = s.resultados ++ [d] := by
  obtain ⟨codigo, hd, -, -, htx⟩ := spinSlot_ok h
  obtain ⟨codigoData, config, -, -, hcfg, -, hcod, hcfg1, hres, -⟩ := spinSlotTx_ok htx
  refine ⟨codigo, hd, ?_, ⟨config, _, hcfg, hcfg1, ?_, ?_, ?_⟩, _, hres⟩
  · intro c hc
    rw [hcod, Function.update_noteq hc]
  · split <;> rfl
  · split <;> rfl
  · intro hg
    simp [hg]

/-- Witness of C16: the winning redemption of `A`. -/
theorem spinSlot_frame_witness :
    spinSlot fsEx (storeWith (some lastPrize)) (some ⟨.string "A"⟩) ⟨none⟩ 7 zeros 0 =
        some (.ok wonA, storeWonA) ∧
    ∃ codigo, (some ⟨.string "A"⟩ : Option Data) = some ⟨.string codigo⟩ ∧
      (∀ c, c ≠ codigo → storeWonA.codigos c = (storeWith (some lastPrize)).codigos c) ∧
      (∃ config config1, (storeWith (some lastPrize)).config = some config ∧
        storeWonA.config = some config1 ∧
        config1.probabilidad = config.probabilidad ∧
        config1.premio_nombre = config.premio_nombre ∧
        (wonA.gana = false → config1 = config)) ∧
      ∃ d, storeWonA.resultados = (storeWith (some lastPrize)).resultados ++ [d] :=
  ⟨spinSlot_storeWonA, spinSlot_frame _ _ _ _ _ _ _ _ _ spinSlot_storeWonA⟩

/-! ## C17: the remainder returned -/

/-- C17 (counterexample): the counter holds the integer `n = 1e16 ≥ 0` and the
call wins; the `premios_restantes` returned is `1e16`, not `n - 1`, because
`1e16 - 1` is `1e16` in doubles. -/
theorem spinSlot_returned_big_counter :
    spinSlot fsEx (storeWith (some bigPrize)) (some ⟨.string "A"⟩) ⟨none⟩ 7 zeros 0 =
      some (.ok wonBig, storeWonBig) ∧
    (storeWith (some bigPrize)).remaining = some (((10 ^ 16 : ℤ) : ℚ)) ∧
    (0 : ℤ) ≤ 10 ^ 16 ∧ toDouble (((10 ^ 16 : ℤ) : ℚ)) = (((10 ^ 16 : ℤ) : ℚ)) ∧
    wonBig.gana = true ∧ wonBig.premios_restantes = ((10 ^ 16 : ℤ) : ℚ) ∧
    wonBig.premios_restantes ≠ ((10 ^ 16 : ℤ) : ℚ) - 1 := by
  refine ⟨spinSlot_storeWonBig, by norm_num [Store.remaining, storeWith, bigPrize],
    by norm_num, ?_, rfl, by norm_num [wonBig], by norm_num [wonBig]⟩
  have := toDouble_big
  push_cast
  exact this

/-- C17 (amended): a successful `spinSlot` from a store whose
`premios_restantes` is an integer `n ≤ 2 ^ 53` (in particular
`0 ≤ n ≤ 2 ^ 53`) returns as `premios_restantes` the value stored after the
call: `n - 1` on a win and `n` on a loss; and it returns as `premio_nombre` the
stored `premio_nombre` on a win and `null` on a loss. -/
theorem spinSlot_returned_remaining (fs : Firestore) (s s1 : Store) (data : Option Data)
    (context : Context) (now : ℕ) (rnd : ℕ → ℚ) (fuel : ℕ) (r : Resultado)
    (config : ConfigDoc) (n : ℤ)
    (h : spinSlot fs s data context now rnd fuel = some (.ok r, s1))
    (hcfg : s.config = some config) (hn : config.premios_restantes = some (n : ℚ))
    (hb : n ≤ 2 ^ 53) :
    s1.remaining = some r.premios_restantes ∧
    (r.gana = true → r.premios_restantes = (n : ℚ) - 1 ∧
      r.premio_nombre = config.premio_nombre) ∧
    (r.gana = false → r.premios_restantes = (n : ℚ) ∧ r.premio_nombre = JsVal.null) := by
  obtain ⟨codigo, -, -, -, htx⟩ := spinSlot_ok h
  obtain ⟨codigoData, config0, -, -, hcfg0, hg, -, hcfg1, -, -, hpn, hpr⟩ := spinSlotTx_ok htx
  rw [hcfg] at hcfg0
  cases hcfg0
  rw [hn, orDefault_intCast] at hpr hcfg1 hg
  refine ⟨?_, ?_, ?_⟩
  · cases hgv : r.gana with
    | false => simp [Store.remaining, hcfg1, hpr, hgv, hn]
    | true => simp [Store.remaining, hcfg1, hpr, hgv]
  · intro hgv
    rw [hgv] at hg
    have hpos : (n : ℚ) > 0 := by
      have := hg.symm
      simp only [Bool.and_eq_true, decide_eq_true_eq] at this
      exact this.1
    have hpos' : 0 < n := by exact_mod_cast hpos
    rw [hpr, hpn]
    simp [hgv, toDouble_int_pred n hpos' hb]
  · intro hgv
    rw [hpr, hpn]
    simp [hgv]

/-- Witness of C17 (amended): the winning redemption of `A` from one prize
left. -/
theorem spinSlot_returned_remaining_witness :
    (spinSlot fsEx (storeWith (some lastPrize)) (some ⟨.string "A"⟩) ⟨none⟩ 7 zeros 0 =
        some (.ok wonA, storeWonA) ∧
      (storeWith (some lastPrize)).config = some lastPrize ∧
      lastPrize.premios_restantes = some ((1 : ℤ) : ℚ) ∧ (1 : ℤ) ≤ 2 ^ 53) ∧
    (storeWonA.remaining = some wonA.premios_restantes ∧
      (wonA.gana = true → wonA.premios_restantes = ((1 : ℤ) : ℚ) - 1 ∧
        wonA.premio_nombre = lastPrize.premio_nombre) ∧
      (wonA.gana = false → wonA.premios_restantes = ((1 : ℤ) : ℚ) ∧
        wonA.premio_nombre = JsVal.null)) :=
  ⟨⟨spinSlot_storeWonA, rfl, by simp [lastPrize], by norm_num⟩,
    spinSlot_returned_remaining _ _ _ _ _ _ _ _ _ lastPrize 1 spinSlot_storeWonA rfl
      (by simp [lastPrize]) (by norm_num)⟩

/-! ## C18: the last prize and two codes -/

theorem spinSlot_storeTwoWonA :
    spinSlot fsEx storeTwo (some ⟨.string "A"⟩) ⟨none⟩ 7 zeros 0 =
      some (.ok wonA, storeTwoWonA) := by
  simp [spinSlot, spinSlotTx, storeTwo, lastPrize, zeros, wonA, storeTwoWonA, fsEx,
    JsVal.truthy, JsVal.isString, orDefault, uidOrNull, elegir_simbolos_zero, toDouble_zero]

/-- C18 (counterexample), in two parts, each with one prize left,
`probabilidad = 1`, the unused codes `A` and `C` and draws in `[0, 1)`.
First, `config/actual` has no `premio_nombre`: the call for `A` fails with
`internal` and commits nothing, the call for `C` that follows fails in the same
way, and one prize is still left; no call returns `gana = true`.  Second,
`config/actual` has a `premio_nombre` and every draw is `0`: the call for `A`
returns `gana = true`, and the call for `C` that follows returns nothing,
whatever the fuel, so it does not return `gana = false`. -/
theorem last_prize_second_call_no_return :
    (UnitDraws mixed ∧
      storeTwoNoLabel.config = some ⟨some 1, some 1, .undefined, none⟩ ∧
      storeTwoNoLabel.codigos "A" = some ⟨false, none, none, none⟩ ∧
      storeTwoNoLabel.codigos "C" = some ⟨false, none, none, none⟩ ∧
      spinSlot fsEx storeTwoNoLabel (some ⟨.string "A"⟩) ⟨none⟩ 7 mixed 2 =
        some (.error (.https ⟨.internal, "Cannot use undefined as a Firestore value"⟩),
          storeTwoNoLabel) ∧
      spinSlot fsEx storeTwoNoLabel (some ⟨.string "C"⟩) ⟨none⟩ 9 mixed 2 =
        some (.error (.https ⟨.internal, "Cannot use undefined as a Firestore value"⟩),
          storeTwoNoLabel) ∧
      storeTwoNoLabel.remaining = some 1) ∧
    (UnitDraws zeros ∧
      storeTwo.config = some ⟨some 1, some 1, .string "Premio", none⟩ ∧
      storeTwo.codigos "A" = some ⟨false, none, none, none⟩ ∧
      storeTwo.codigos "C" = some ⟨false, none, none, none⟩ ∧
      spinSlot fsEx storeTwo (some ⟨.string "A"⟩) ⟨none⟩ 7 zeros 0 =
        some (.ok wonA, storeTwoWonA) ∧
      wonA.gana = true ∧
      ¬ ∃ fuel x, spinSlot fsEx storeTwoWonA (some ⟨.string "C"⟩) ⟨none⟩ 9 zeros fuel =
        some x) := by
  refine ⟨⟨unitDraws_mixed, rfl, by simp [storeTwoNoLabel], by simp [storeTwoNoLabel],
      ?_, ?_, by simp [Store.remaining, storeTwoNoLabel, noLabel]⟩,
    ⟨unitDraws_zeros, rfl, by simp [storeTwo], by simp [storeTwo],
      spinSlot_storeTwoWonA, rfl, ?_⟩⟩
  · have h2 : (2 : ℚ)⁻¹ < 1 := by norm_num
    simp [spinSlot, spinSlotTx, storeTwoNoLabel, noLabel, mixed, fsEx, JsVal.truthy,
      JsVal.isString, orDefault, messageOrDefault, h2]
  · have h2 : (2 : ℚ)⁻¹ < 1 := by norm_num
    simp [spinSlot, spinSlotTx, storeTwoNoLabel, noLabel, mixed, fsEx, JsVal.truthy,
      JsVal.isString, orDefault, messageOrDefault, h2]
  · rintro ⟨fuel, x, h⟩
    simp [spinSlot, spinSlotTx, storeTwoWonA, storeTwo, fsEx, JsVal.truthy, JsVal.isString,
      orDefault, Function.update_apply, generarSimbolosPerdedor_zeros] at h

/-- C18 (amended): one prize left, `probabilidad = 1`, a `config/actual` that
has a `premio_nombre`, two distinct existing unused codes `a` and `b` that name
documents, redeemed one after the other (either may be first), draws of the
first call doubles in `[0, 1)`.  The first call returns `gana = true` and
brings `premios_restantes` to `0`.  The second call returns exactly when its
`generarSimbolosPerdedor` returns within the fuel, and it then returns
`gana = false` and leaves `premios_restantes` at `0`; otherwise it returns
nothing.  It never returns a win or an error. -/
theorem last_prize_two_codes (fs : Firestore) (s : Store) (a b : String) (da db : CodigoDoc)
    (config : ConfigDoc) (context1 context2 : Context) (now1 now2 : ℕ)
    (rnd1 rnd2 : ℕ → ℚ) (fuel1 fuel2 : ℕ)
    (ha : a ≠ "") (hb : b ≠ "") (hab : a ≠ b)
    (hda : fs.docOk a = true) (hdb : fs.docOk b = true)
    (hca : s.codigos a = some da) (hua : da.usado = false)
    (hcb : s.codigos b = some db) (hub : db.usado = false)
    (hcfg : s.config = some config) (h1 : config.premios_restantes = some 1)
    (hp : config.probabilidad = some 1)
    (hlabel : config.premio_nombre ≠ JsVal.undefined) (hd : UnitDraws rnd1) :
    ∃ r1 s1, spinSlot fs s (some ⟨.string a⟩) context1 now1 rnd1 fuel1 = some (.ok r1, s1) ∧
      r1.gana = true ∧ s1.remaining = some 0 ∧
      ((generarSimbolosPerdedor simbolos rnd2 0 fuel2 = none ∧
          spinSlot fs s1 (some ⟨.string b⟩) context2 now2 rnd2 fuel2 = none) ∨
        ∃ r2 s2, spinSlot fs s1 (some ⟨.string b⟩) context2 now2 rnd2 fuel2 =
            some (.ok r2, s2) ∧
          r2.gana = false ∧
          generarSimbolosPerdedor simbolos rnd2 0 fuel2 = some r2.simbolosMostrados ∧
          s2.remaining = some 0) := by
  have hd0 : rnd1 0 < 1 := (hd 0).2.2
  have hba : b ≠ a := fun h => hab h.symm
  obtain ⟨-, -, x, -, hex⟩ := elegir_simbolos_mem (rnd1 1) (hd 1).1 (hd 1).2.1 (hd 1).2.2
  refine ⟨⟨true, some x, [some x, some x, some x], config.premio_nombre, 0⟩,
    { codigos := Function.update s.codigos a
        (some ⟨true, some true, some now1, uidOrNull context1⟩),
      config := some { config with premios_restantes := some 0, ultimo_ganador := some now1 },
      resultados := s.resultados ++
        [⟨a, true, some x, config.premio_nombre, now1, uidOrNull context1⟩] }, ?_, rfl, rfl, ?_⟩
  · rw [spinSlot_string fs s a _ _ _ _ ha hda]
    simp [spinSlotTx, hca, hua, hcfg, h1, hp, orDefault, hd0, hex, hlabel, toDouble_zero]
  · cases hg : generarSimbolosPerdedor simbolos rnd2 0 fuel2 with
    | none =>
      left
      refine ⟨rfl, ?_⟩
      rw [spinSlot_string fs _ b _ _ _ _ hb hdb]
      simp [spinSlotTx, Function.update_apply, hba, hcb, hub, orDefault, hg]
    | some m =>
      right
      refine ⟨⟨false, none, m, JsVal.null, 0⟩,
        { codigos := Function.update
            (Function.update s.codigos a
              (some ⟨true, some true, some now1, uidOrNull context1⟩)) b
            (some ⟨true, some false, some now2, uidOrNull context2⟩),
          config := some { config with
            premios_restantes := some 0, ultimo_ganador := some now1 },
          resultados := (s.resultados ++
            [⟨a, true, some x, config.premio_nombre, now1, uidOrNull context1⟩]) ++
            [⟨b, false, none, JsVal.null, now2, uidOrNull context2⟩] }, ?_, rfl, rfl, rfl⟩
      rw [spinSlot_string fs _ b _ _ _ _ hb hdb]
      simp [spinSlotTx, Function.update_apply, hba, hcb, hub, orDefault, hg]

/-- Witness of C18 (amended): `A` then `C` from `storeTwo`. -/
theorem last_prize_two_codes_witness :
    ("A" ≠ "" ∧ "C" ≠ "" ∧ "A" ≠ "C" ∧ fsEx.docOk "A" = true ∧ fsEx.docOk "C" = true ∧
      storeTwo.codigos "A" = some ⟨false, none, none, none⟩ ∧
      storeTwo.codigos "C" = some ⟨false, none, none, none⟩ ∧
      storeTwo.config = some lastPrize ∧ lastPrize.premios_restantes = some 1 ∧
      lastPrize.probabilidad = some 1 ∧ lastPrize.premio_nombre ≠ JsVal.undefined ∧
      UnitDraws zeros) ∧
    ∃ r1 s1, spinSlot fsEx storeTwo (some ⟨.string "A"⟩) ⟨none⟩ 7 zeros 0 =
        some (.ok r1, s1) ∧
      r1.gana = true ∧ s1.remaining = some 0 ∧
      ((generarSimbolosPerdedor simbolos mixed 0 2 = none ∧
          spinSlot fsEx s1 (some ⟨.string "C"⟩) ⟨some "u3"⟩ 9 mixed 2 = none) ∨
        ∃ r2 s2, spinSlot fsEx s1 (some ⟨.string "C"⟩) ⟨some "u3"⟩ 9 mixed 2 =
            some (.ok r2, s2) ∧
          r2.gana = false ∧
          generarSimbolosPerdedor simbolos mixed 0 2 = some r2.simbolosMostrados ∧
          s2.remaining = some 0) :=
  ⟨⟨by decide, by decide, by decide, by simp [fsEx], by simp [fsEx], by simp [storeTwo],
      by simp [storeTwo], rfl, rfl, rfl, by simp [lastPrize], unitDraws_zeros⟩,
    last_prize_two_codes fsEx storeTwo "A" "C" ⟨false, none, none, none⟩
      ⟨false, none, none, none⟩ lastPrize ⟨none⟩ ⟨some "u3"⟩ 7 9 zeros mixed 0 2
      (by decide) (by decide) (by decide) (by simp [fsEx]) (by simp [fsEx])
      (by simp [storeTwo]) rfl (by simp [storeTwo]) rfl rfl rfl rfl (by simp [lastPrize])
      unitDraws_zeros⟩

end Slotpromo
